import Mathlib

/-!
# llvm::sys::DynamicLibrary — registry of opened libraries and symbol resolver

Shallow embedding of `interpreter/llvm/src/lib/Support/DynamicLibrary.cpp`.

* A `void *` is a natural number, `nullptr` is `0`.
* The platform primitives `DLOpen`, `DLClose`, `DLSym` and `DoSearch` live in
  `Unix/DynamicLibrary.inc`; they are taken as a parameter `Native σ` acting on
  an arbitrary loader state `σ`.
* Every call of a platform primitive is appended to a log (`World.calls`), so
  that "Close is called once" or "no native call is made" can be stated.
* A failing `assert` aborts: the embedded function returns `none`. So does a write
  through a null pointer.
* Line 164 negates the `std::pair` that `AddLibrary` returns. The sources at hand declare
  no conversion of that pair to `bool`, so the conversion is a parameter as well
  (`Native.pairToBool`) and no reading of the line is built in.
* The `ManagedStatic` globals are `Option`s: `none` until first dereferenced.
-/

namespace DynamicLibrary

/-- A `void *` value. -/
abbrev Ptr := Nat

/-- The null pointer. -/
def nullptr : Ptr := 0

/-- One call of a platform primitive, as recorded in the log. -/
inductive NativeCall where
  | DLOpen (Filename : Option String)
  | DLClose (Handle : Ptr)
  | DLSym (Handle : Ptr) (Symbol : String)
  | DoSearch (SymbolName : String)
  deriving DecidableEq, Repr

/-- A `DynamicLibrary *` into a `HandleSet`: the element of `Handles` at an index, or
the member `Process`. -/
inductive Entry where
  | handle (idx : Nat)
  | process
  deriving DecidableEq, Repr

/-- The type `std::pair<DynamicLibrary *, bool>`. -/
abbrev ReturnTy := Entry × Bool

/-- What the sources at hand leave open: the platform primitives of
`DynamicLibrary.inc` over a loader state `σ`, the address `&DynamicLibrary::Invalid` of
the sentinel, and `pairToBool`, the truth value of a `ReturnTy` where line 164 uses one
as a condition. `DLOpen` gets `none` for a null file name and answers `Invalid` on
failure. -/
structure Native (σ : Type) where
  Invalid : Ptr
  DLOpen : σ → Option String → Ptr × σ
  DLClose : σ → Ptr → σ
  DLSym : σ → Ptr → String → Ptr
  DoSearch : σ → String → Ptr
  pairToBool : ReturnTy → Bool

/-- The loader state together with the log of the primitive calls made so far. -/
structure World (σ : Type) where
  os : σ
  calls : List NativeCall

/-- Logged `HandleSet::DLOpen`. -/
def World.DLOpen {σ : Type} (N : Native σ) (w : World σ) (Filename : Option String) :
    Ptr × World σ :=
  ((N.DLOpen w.os Filename).1,
    { os := (N.DLOpen w.os Filename).2, calls := w.calls ++ [NativeCall.DLOpen Filename] })

/-- Logged `HandleSet::DLClose`. -/
def World.DLClose {σ : Type} (N : Native σ) (w : World σ) (Handle : Ptr) : World σ :=
  { os := N.DLClose w.os Handle, calls := w.calls ++ [NativeCall.DLClose Handle] }

/-- Logged `HandleSet::DLSym`; the loader state is only read. -/
def World.DLSym {σ : Type} (N : Native σ) (w : World σ) (Handle : Ptr) (Symbol : String) :
    Ptr × World σ :=
  (N.DLSym w.os Handle Symbol,
    { os := w.os, calls := w.calls ++ [NativeCall.DLSym Handle Symbol] })

/-- Logged `DoSearch`, the special-symbol hook. -/
def World.DoSearch {σ : Type} (N : Native σ) (w : World σ) (SymbolName : String) :
    Ptr × World σ :=
  (N.DoSearch w.os SymbolName,
    { os := w.os, calls := w.calls ++ [NativeCall.DoSearch SymbolName] })

/-- Modelled from the spec: the enumerators of `DynamicLibrary::SearchOrdering` are
declared in `llvm/Support/DynamicLibrary.h`, which is not part of the sources at hand.
The spec describes a flag set; "explicit handles first" is this flag. -/
def SO_LoadedFirst : Nat := 1

/-- Modelled from the spec: the flag "explicit handles last" of the search ordering
(declared in the absent header). -/
def SO_LoadedLast : Nat := 2

/-- Modelled from the spec: the flag "load order" of the search ordering (declared in
the absent header). -/
def SO_LoadOrder : Nat := 4

/-- The test `Order & Flag` read as a condition. -/
def hasFlag (Order Flag : Nat) : Bool := (Order &&& Flag) != 0

/-- Modelled from the spec: `DynamicLibrary::isValid` and the conversion to `bool`
used by `!Process` are declared in the absent header; a handle is valid when it is
not the sentinel. -/
def isValid {σ : Type} (N : Native σ) (Data : Ptr) : Bool := Data != N.Invalid

/-- The class `HandleSet`: `Handles` holds the `Data` of each `DynamicLibrary` of the
vector, `Process` the `Data` of the process entry. -/
structure HandleSet where
  Handles : List Ptr
  Process : Ptr
  deriving DecidableEq, Repr

/-- The constructor `HandleSet()`: an empty vector and a default-constructed `Process`, whose `Data`
is the sentinel. -/
def HandleSet.new {σ : Type} (N : Native σ) : HandleSet :=
  { Handles := [], Process := N.Invalid }

/-- The method `HandleSet::Find`: position of the first element equal to `Handle`, the length of
`Handles` standing for `Handles.end()`. -/
def HandleSet.Find (hs : HandleSet) (Handle : Ptr) : Nat :=
  hs.Handles.indexOf Handle

/-- The method `HandleSet::Contains`. -/
def HandleSet.Contains (hs : HandleSet) (Handle : Ptr) : Bool :=
  Handle == hs.Process || hs.Find Handle != hs.Handles.length

/-- The method `HandleSet::AddLibrary` (the Windows-only assertion left out); `none`
when the assertion on `Handle` fails. -/
def HandleSet.AddLibrary {σ : Type} (N : Native σ) (hs : HandleSet) (w : World σ)
    (Handle : Ptr) (IsProcess CanClose : Bool) : Option (ReturnTy × HandleSet × World σ) :=
  if Handle = N.Invalid then none
  else if !IsProcess then
    let Itr := hs.Find Handle
    if Itr ≠ hs.Handles.length then
      let w1 := if CanClose then w.DLClose N Handle else w
      some ((Entry.handle Itr, false), hs, w1)
    else
      let hs1 : HandleSet := { hs with Handles := hs.Handles ++ [Handle] }
      some ((Entry.handle (hs1.Handles.length - 1), true), hs1, w)
  else
    let FirstTime : Bool := hs.Process == N.Invalid
    let w1 := if !FirstTime && CanClose then w.DLClose N hs.Process else w
    some ((Entry.process, FirstTime), { hs with Process := Handle }, w1)

/-- The range-for loops of `LibLookup`: the first non-null `DLSym` over the given
handles, or null. -/
def lookupLoop {σ : Type} (N : Native σ) (Symbol : String) :
    List Ptr → World σ → Ptr × World σ
  | [], w => (nullptr, w)
  | DL :: rest, w =>
    let r := w.DLSym N DL Symbol
    if r.1 ≠ nullptr then r else lookupLoop N Symbol rest r.2

/-- The method `HandleSet::LibLookup`. -/
def HandleSet.LibLookup {σ : Type} (N : Native σ) (hs : HandleSet) (w : World σ)
    (Symbol : String) (Order : Nat) : Ptr × World σ :=
  if hasFlag Order SO_LoadOrder then lookupLoop N Symbol hs.Handles w
  else lookupLoop N Symbol hs.Handles.reverse w

/-- The method `HandleSet::Lookup`; `none` when the assertion on `Order` fails. -/
def HandleSet.Lookup {σ : Type} (N : Native σ) (hs : HandleSet) (w : World σ)
    (Symbol : String) (Order : Nat) : Option (Ptr × World σ) :=
  if hasFlag Order SO_LoadedFirst && hasFlag Order SO_LoadedLast then none
  else
    let r1 : Ptr × World σ :=
      if !isValid N hs.Process || hasFlag Order SO_LoadedFirst then
        hs.LibLookup N w Symbol Order
      else (nullptr, w)
    if r1.1 ≠ nullptr then some r1
    else if isValid N hs.Process then
      let r2 := r1.2.DLSym N hs.Process Symbol
      if r2.1 ≠ nullptr then some r2
      else if hasFlag Order SO_LoadedLast then
        let r3 := hs.LibLookup N r2.2 Symbol Order
        if r3.1 ≠ nullptr then some r3 else some (nullptr, r3.2)
      else some (nullptr, r2.2)
    else some (nullptr, r1.2)

/-- The type `llvm::StringMap<void *>`: an association list with unique keys. -/
abbrev StringMap := List (String × Ptr)

/-- The method `StringMap::find`, `none` standing for `end()`. -/
def StringMap.find (m : StringMap) (Key : String) : Option Ptr :=
  List.lookup Key m

/-- The assignment `Map[Key] = Value`. -/
def StringMap.set (m : StringMap) (Key : String) (Value : Ptr) : StringMap :=
  (Key, Value) :: m.filter (fun e => e.1 != Key)

/-- The process-wide state: the three globals of the file, the static member
`SearchOrder`, and the platform. -/
structure State (σ : Type) where
  ExplicitSymbols : Option StringMap
  OpenedHandles : Option HandleSet
  SearchOrder : Nat
  world : World σ

/-- The state at program start: nothing constructed, `SearchOrder` as initialised at
its definition. -/
def State.init {σ : Type} (s : σ) : State σ :=
  { ExplicitSymbols := none, OpenedHandles := none, SearchOrder := SO_LoadedLast,
    world := { os := s, calls := [] } }

/-- The object `*OpenedHandles`: the set, constructed on first use. -/
def State.handles {σ : Type} (N : Native σ) (st : State σ) : HandleSet :=
  st.OpenedHandles.getD (HandleSet.new N)

/-- The function `DynamicLibrary::AddSymbol`. -/
def AddSymbol {σ : Type} (st : State σ) (SymbolName : String) (SymbolValue : Ptr) :
    State σ :=
  { st with ExplicitSymbols := some ((st.ExplicitSymbols.getD []).set SymbolName SymbolValue) }

/-- The function `DynamicLibrary::getPermanentLibrary`; the result is the `Data` of the returned
`DynamicLibrary`. -/
def getPermanentLibrary {σ : Type} (N : Native σ) (st : State σ) (FileName : Option String) :
    Option (Ptr × State σ) :=
  let r := st.world.DLOpen N FileName
  if r.1 ≠ N.Invalid then
    match (st.handles N).AddLibrary N r.2 r.1 (FileName == none) true with
    | none => none
    | some (_, hs, w) => some (r.1, { st with OpenedHandles := some hs, world := w })
  else some (r.1, { st with world := r.2 })

/-- The function `DynamicLibrary::addPermanentLibrary`. The argument `Err` is `none`
for a null pointer and `some s` for a pointer to a string holding `s`. The result is the
`Data` of the returned `DynamicLibrary` and the string `Err` points to after the call
(`none` for a null `Err`). The condition of line 164 is the negation of the returned
pair, valued by `N.pairToBool`; line 165 writes through `Err` without a test, which
aborts on a null `Err`. -/
def addPermanentLibrary {σ : Type} (N : Native σ) (st : State σ) (Handle : Ptr)
    (Err : Option String) : Option ((Ptr × Option String) × State σ) :=
  match (st.handles N).AddLibrary N st.world Handle false false with
  | none => none
  | some (ret, hs, w) =>
    if !N.pairToBool ret then
      match Err with
      | none => none
      | some _ =>
        some ((Handle, some "Library already loaded"),
          { st with OpenedHandles := some hs, world := w })
    else some ((Handle, Err), { st with OpenedHandles := some hs, world := w })

/-- The method `DynamicLibrary::getAddressOfSymbol` of the library whose member is `Data`. -/
def getAddressOfSymbol {σ : Type} (N : Native σ) (Data : Ptr) (w : World σ)
    (SymbolName : String) : Ptr × World σ :=
  if !isValid N Data then (nullptr, w) else w.DLSym N Data SymbolName

/-- The function `llvm::SearchForAddressOfSpecialSymbol`. -/
def SearchForAddressOfSpecialSymbol {σ : Type} (N : Native σ) (w : World σ)
    (SymbolName : String) : Ptr × World σ :=
  w.DoSearch N SymbolName

/-- The library part of `SearchForAddressOfSymbol`, after the explicit symbols missed. -/
def searchLibraries {σ : Type} (N : Native σ) (st : State σ) (SymbolName : String) :
    Option (Ptr × State σ) :=
  match st.OpenedHandles with
  | some hs =>
    match hs.Lookup N st.world SymbolName st.SearchOrder with
    | none => none
    | some r =>
      if r.1 ≠ nullptr then some (r.1, { st with world := r.2 })
      else
        let q := SearchForAddressOfSpecialSymbol N r.2 SymbolName
        some (q.1, { st with world := q.2 })
  | none =>
    let q := SearchForAddressOfSpecialSymbol N st.world SymbolName
    some (q.1, { st with world := q.2 })

/-- The function `DynamicLibrary::SearchForAddressOfSymbol`; `none` when the assertion
of `Lookup` fails. -/
def SearchForAddressOfSymbol {σ : Type} (N : Native σ) (st : State σ) (SymbolName : String) :
    Option (Ptr × State σ) :=
  match st.ExplicitSymbols with
  | some m =>
    match m.find SymbolName with
    | some v => some (v, st)
    | none => searchLibraries N st SymbolName
  | none => searchLibraries N st SymbolName

/-- One call into the component, or an assignment to the public static `SearchOrder`. -/
inductive Op where
  | AddLibrary (Handle : Ptr) (IsProcess CanClose : Bool)
  | getPermanentLibrary (FileName : Option String)
  | addPermanentLibrary (Handle : Ptr) (Err : Option String)
  | AddSymbol (SymbolName : String) (SymbolValue : Ptr)
  | LibLookup (Symbol : String) (Order : Nat)
  | Lookup (Symbol : String) (Order : Nat)
  | SearchForAddressOfSymbol (SymbolName : String)
  | getAddressOfSymbol (Data : Ptr) (SymbolName : String)
  | setSearchOrder (Order : Nat)
  deriving DecidableEq, Repr

/-- The state after one call; `none` when an assertion fails or a null pointer is
written through. The `HandleSet` methods
are called through `OpenedHandles->`, which constructs the set on first use. -/
def step {σ : Type} (N : Native σ) (st : State σ) : Op → Option (State σ)
  | Op.AddLibrary Handle IsProcess CanClose =>
    match (st.handles N).AddLibrary N st.world Handle IsProcess CanClose with
    | none => none
    | some (_, hs, w) => some { st with OpenedHandles := some hs, world := w }
  | Op.getPermanentLibrary FileName => (getPermanentLibrary N st FileName).map Prod.snd
  | Op.addPermanentLibrary Handle Err => (addPermanentLibrary N st Handle Err).map Prod.snd
  | Op.AddSymbol SymbolName SymbolValue => some (AddSymbol st SymbolName SymbolValue)
  | Op.LibLookup Symbol Order =>
    some { st with OpenedHandles := some (st.handles N),
                   world := ((st.handles N).LibLookup N st.world Symbol Order).2 }
  | Op.Lookup Symbol Order =>
    match (st.handles N).Lookup N st.world Symbol Order with
    | none => none
    | some r => some { st with OpenedHandles := some (st.handles N), world := r.2 }
  | Op.SearchForAddressOfSymbol SymbolName =>
    (SearchForAddressOfSymbol N st SymbolName).map Prod.snd
  | Op.getAddressOfSymbol Data SymbolName =>
    some { st with world := (getAddressOfSymbol N Data st.world SymbolName).2 }
  | Op.setSearchOrder Order => some { st with SearchOrder := Order }

/-- The state after a sequence of calls. -/
def run {σ : Type} (N : Native σ) (st : State σ) : List Op → Option (State σ)
  | [] => some st
  | op :: ops => (step N st op).bind (fun st1 => run N st1 ops)

/-- A small platform used to evaluate the definitions: the sentinel is at `1`, the
process handle is `2`, the library `"libA"` opens as `10` and `"libB"` as `11`, every
other file fails to open; the process exports `"f"`, `10` exports `"g"` and `"h"`,
`11` exports `"g"`; the hook knows `"stderr"`. A returned pair counts as true when its
flag "newly added" is set, which is the reading the comment on line 163 suggests. -/
def demoNative : Native Unit where
  Invalid := 1
  DLOpen := fun s FileName =>
    match FileName with
    | none => (2, s)
    | some p => if p = "libA" then (10, s) else if p = "libB" then (11, s) else (1, s)
  DLClose := fun s _ => s
  DLSym := fun _ Handle Symbol =>
    if Handle = 2 ∧ Symbol = "f" then 200
    else if Handle = 10 ∧ Symbol = "g" then 100
    else if Handle = 10 ∧ Symbol = "h" then 101
    else if Handle = 11 ∧ Symbol = "g" then 110
    else 0
  DoSearch := fun _ SymbolName => if SymbolName = "stderr" then 7 else 0
  pairToBool := fun ret => ret.2

/-- The `Data` of the `DynamicLibrary` a returned pointer refers to. -/
def HandleSet.deref (hs : HandleSet) : Entry → Option Ptr
  | Entry.handle idx => hs.Handles[idx]?
  | Entry.process => some hs.Process

/-- The handles returned by `k` successive calls `getPermanentLibrary(FileName)` and the
state after them. -/
def loadTimes {σ : Type} (N : Native σ) (FileName : Option String) :
    Nat → State σ → Option (List Ptr × State σ)
  | 0, st => some ([], st)
  | k + 1, st =>
    match getPermanentLibrary N st FileName with
    | none => none
    | some (Handle, st1) =>
      match loadTimes N FileName k st1 with
      | none => none
      | some (rest, st2) => some (Handle :: rest, st2)

/-- The spec's reading of a scan: the `DLSym` result of the first handle of `l` whose
`DLSym` result for `Symbol` is non-null, and null when there is none. Written from the
spec's words, to be compared with `lookupLoop`. -/
def firstExport {σ : Type} (N : Native σ) (os : σ) (Symbol : String) (l : List Ptr) : Ptr :=
  match l.find? (fun DL => N.DLSym os DL Symbol != nullptr) with
  | some DL => N.DLSym os DL Symbol
  | none => nullptr

/-- The spec's scan order: load order when the load-order flag is set, reverse load
order otherwise. -/
def scanOrder (hs : HandleSet) (Order : Nat) : List Ptr :=
  if hasFlag Order SO_LoadOrder then hs.Handles else hs.Handles.reverse

/-- The address `HandleSet::Lookup` returns, as a function of the loader state alone
(the log of calls dropped). -/
def lookupValue {σ : Type} (N : Native σ) (hs : HandleSet) (os : σ) (Symbol : String)
    (Order : Nat) : Ptr :=
  let l := firstExport N os Symbol (scanOrder hs Order)
  let r1 := if !isValid N hs.Process || hasFlag Order SO_LoadedFirst then l else nullptr
  if r1 ≠ nullptr then r1
  else if isValid N hs.Process then
    if N.DLSym os hs.Process Symbol ≠ nullptr then N.DLSym os hs.Process Symbol
    else if hasFlag Order SO_LoadedLast then l else nullptr
  else nullptr

/-- Whether a logged call is a call of `DLSym`. -/
def NativeCall.isDLSym : NativeCall → Bool
  | NativeCall.DLSym _ _ => true
  | _ => false

/-- The log of `w1` is the log of `w` followed by calls of `DLSym` only. -/
def World.extendsBySym {σ : Type} (w w1 : World σ) : Prop :=
  ∃ mid : List NativeCall, w1.calls = w.calls ++ mid ∧ mid.all NativeCall.isDLSym = true

/-- A platform on which the process handle `2` and the library handle `10` both export
`"f"`, at `200` and at `100`; the sentinel is at `1`. A returned pair counts as true
when its flag "newly added" is set. -/
def overlapNative : Native Unit where
  Invalid := 1
  DLOpen := fun s FileName =>
    match FileName with
    | none => (2, s)
    | some _ => (10, s)
  DLClose := fun s _ => s
  DLSym := fun _ Handle Symbol =>
    if Handle = 2 ∧ Symbol = "f" then 200
    else if Handle = 10 ∧ Symbol = "f" then 100
    else 0
  DoSearch := fun _ _ => 0
  pairToBool := fun ret => ret.2

/-- Whether a call is one of the lookups: `LibLookup`, `Lookup`,
`SearchForAddressOfSymbol`, `getAddressOfSymbol`. -/
def Op.isLookup : Op → Bool
  | Op.LibLookup _ _ => true
  | Op.Lookup _ _ => true
  | Op.SearchForAddressOfSymbol _ => true
  | Op.getAddressOfSymbol _ _ => true
  | _ => false

/-- A sequence of `AddLibrary` calls, each given as `(Handle, IsProcess, CanClose)`. -/
def addCalls (l : List (Ptr × Bool × Bool)) : List Op :=
  l.map (fun a => Op.AddLibrary a.1 a.2.1 a.2.2)

/-! ## Auxiliary facts -/

theorem StringMap.find_set_same (m : StringMap) (Key : String) (Value : Ptr) :
    (m.set Key Value).find Key = some Value := by
  simp [StringMap.set, StringMap.find, List.lookup]

theorem StringMap.lookup_filter_ne (m : List (String × Ptr)) (Key Other : String)
    (h : Other ≠ Key) :
    List.lookup Other (m.filter (fun e => e.1 != Key)) = List.lookup Other m := by
  induction m with
  | nil => rfl
  | cons e rest ih =>
    obtain ⟨k, v⟩ := e
    by_cases hk : k = Key
    · subst hk
      have h1 : (Other == k) = false := by simpa using h
      simp [List.filter, List.lookup, h1, ih]
    · have h2 : (k != Key) = true := by simpa using hk
      simp only [List.filter, h2, List.lookup, ih]

theorem StringMap.find_set_other (m : StringMap) (Key Other : String) (Value : Ptr)
    (h : Other ≠ Key) : (m.set Key Value).find Other = m.find Other := by
  have h1 : (Other == Key) = false := by simpa using h
  simp only [StringMap.set, StringMap.find, List.lookup, h1]
  exact StringMap.lookup_filter_ne m Key Other h

theorem Find_ne_length_iff (hs : HandleSet) (Handle : Ptr) :
    hs.Find Handle ≠ hs.Handles.length ↔ Handle ∈ hs.Handles := by
  unfold HandleSet.Find
  rw [Ne, List.indexOf_eq_length, not_not]

theorem AddLibrary_present {σ : Type} (N : Native σ) (hs : HandleSet) (w : World σ)
    (Handle : Ptr) (CanClose : Bool) (hv : Handle ≠ N.Invalid) (hm : Handle ∈ hs.Handles) :
    hs.AddLibrary N w Handle false CanClose
      = some ((Entry.handle (hs.Find Handle), false), hs,
          if CanClose then w.DLClose N Handle else w) := by
  have h1 := (Find_ne_length_iff hs Handle).2 hm
  simp [HandleSet.AddLibrary, hv, h1]

theorem AddLibrary_absent {σ : Type} (N : Native σ) (hs : HandleSet) (w : World σ)
    (Handle : Ptr) (CanClose : Bool) (hv : Handle ≠ N.Invalid) (hm : Handle ∉ hs.Handles) :
    hs.AddLibrary N w Handle false CanClose
      = some ((Entry.handle hs.Handles.length, true),
          { hs with Handles := hs.Handles ++ [Handle] }, w) := by
  have h1 : hs.Find Handle = hs.Handles.length := by
    by_contra hc
    exact hm ((Find_ne_length_iff hs Handle).1 hc)
  simp [HandleSet.AddLibrary, hv, h1]

theorem AddLibrary_Handles {σ : Type} (N : Native σ) (hs hs1 : HandleSet) (w w1 : World σ)
    (Handle : Ptr) (IsProcess CanClose : Bool) (ret : ReturnTy)
    (h : hs.AddLibrary N w Handle IsProcess CanClose = some (ret, hs1, w1)) :
    hs1.Handles = hs.Handles ∨ (Handle ∉ hs.Handles ∧ hs1.Handles = hs.Handles ++ [Handle]) := by
  unfold HandleSet.AddLibrary at h
  by_cases hv : Handle = N.Invalid
  · simp [hv] at h
  · cases IsProcess with
    | true =>
      simp [hv] at h
      left; rw [← h.2.1]
    | false =>
      by_cases hm : Handle ∈ hs.Handles
      · have h1 := (Find_ne_length_iff hs Handle).2 hm
        simp [hv, h1] at h
        left; rw [h.2.1]
      · have h1 : hs.Find Handle = hs.Handles.length := by
          by_contra hc
          exact hm ((Find_ne_length_iff hs Handle).1 hc)
        simp [hv, h1] at h
        right; exact ⟨hm, by rw [← h.2.1]⟩

theorem addPermanentLibrary_state {σ : Type} (N : Native σ) (st : State σ) (Handle : Ptr)
    (Err : Option String) (r : (Ptr × Option String) × State σ)
    (h : addPermanentLibrary N st Handle Err = some r) :
    ∃ ret hs w, (st.handles N).AddLibrary N st.world Handle false false = some (ret, hs, w) ∧
      r.2 = { st with OpenedHandles := some hs, world := w } ∧ r.1.1 = Handle := by
  unfold addPermanentLibrary at h
  split at h
  · simp at h
  · rename_i ret hs w heq
    refine ⟨ret, hs, w, heq, ?_⟩
    split at h
    · split at h
      · simp at h
      · injection h with h
        subst h
        exact ⟨rfl, rfl⟩
    · injection h with h
      subst h
      exact ⟨rfl, rfl⟩

theorem AddLibrary_Nodup {σ : Type} (N : Native σ) (hs hs1 : HandleSet) (w w1 : World σ)
    (Handle : Ptr) (IsProcess CanClose : Bool) (ret : ReturnTy)
    (h : hs.AddLibrary N w Handle IsProcess CanClose = some (ret, hs1, w1))
    (hn : hs.Handles.Nodup) : hs1.Handles.Nodup := by
  rcases AddLibrary_Handles N hs hs1 w w1 Handle IsProcess CanClose ret h with h1 | ⟨hm, h1⟩
  · rw [h1]; exact hn
  · rw [h1]
    exact List.Nodup.append hn (List.nodup_singleton _) (by simpa using hm)

theorem step_Nodup {σ : Type} (N : Native σ) (st st1 : State σ) (op : Op)
    (h : step N st op = some st1) (hn : (st.handles N).Handles.Nodup) :
    (st1.handles N).Handles.Nodup := by
  cases op with
  | AddLibrary Handle IsProcess CanClose =>
    simp only [step] at h
    split at h
    · simp at h
    · rename_i ret hs w heq
      injection h with h
      subst h
      exact AddLibrary_Nodup N _ _ _ _ _ _ _ _ heq hn
  | getPermanentLibrary FileName =>
    simp only [step, getPermanentLibrary] at h
    split at h
    · split at h
      · simp at h
      · rename_i ret hs w heq
        simp at h
        subst h
        exact AddLibrary_Nodup N _ _ _ _ _ _ _ _ heq hn
    · simp at h
      subst h
      exact hn
  | addPermanentLibrary Handle Err =>
    simp only [step] at h
    cases hr : addPermanentLibrary N st Handle Err with
    | none => simp [hr] at h
    | some r =>
      simp only [hr, Option.map_some'] at h
      injection h with h
      subst h
      obtain ⟨ret, hs, w, heq, hst, _⟩ := addPermanentLibrary_state N st Handle Err r hr
      rw [hst]
      exact AddLibrary_Nodup N _ _ _ _ _ _ _ _ heq hn
  | AddSymbol SymbolName SymbolValue =>
    simp only [step, AddSymbol] at h
    injection h with h
    subst h
    exact hn
  | LibLookup Symbol Order =>
    simp only [step] at h
    injection h with h
    subst h
    exact hn
  | Lookup Symbol Order =>
    simp only [step] at h
    split at h
    · simp at h
    · injection h with h
      subst h
      exact hn
  | SearchForAddressOfSymbol SymbolName =>
    simp only [step, SearchForAddressOfSymbol, searchLibraries] at h
    have key : ∀ (w : World σ), (({ st with world := w } : State σ).handles N) = st.handles N :=
      fun _ => rfl
    repeat' split at h
    all_goals first
      | (simp at h; done)
      | (simp at h; subst h; exact hn)
  | getAddressOfSymbol Data SymbolName =>
    simp only [step] at h
    injection h with h
    subst h
    exact hn
  | setSearchOrder Order =>
    simp only [step] at h
    injection h with h
    subst h
    exact hn

theorem run_Nodup {σ : Type} (N : Native σ) (ops : List Op) :
    ∀ (st st1 : State σ), run N st ops = some st1 → (st.handles N).Handles.Nodup →
      (st1.handles N).Handles.Nodup := by
  induction ops with
  | nil =>
    intro st st1 h hn
    simp only [run] at h
    injection h with h
    subst h
    exact hn
  | cons op ops ih =>
    intro st st1 h hn
    simp only [run] at h
    cases hs : step N st op with
    | none => simp [hs] at h
    | some st2 =>
      simp only [hs, Option.bind] at h
      exact ih st2 st1 h (step_Nodup N st st2 op hs hn)

theorem getPermanentLibrary_present {σ : Type} (N : Native σ) (st : State σ) (path : String)
    (h : Ptr) (hopen : ∀ s, (N.DLOpen s (some path)).1 = h) (hv : h ≠ N.Invalid)
    (hm : h ∈ (st.handles N).Handles) :
    getPermanentLibrary N st (some path)
      = some (h, { st with OpenedHandles := some (st.handles N),
                           world := (st.world.DLOpen N (some path)).2.DLClose N h }) := by
  have h1 : (st.world.DLOpen N (some path)).1 = h := hopen st.world.os
  simp only [getPermanentLibrary, h1]
  have h2 : ((some path : Option String) == none) = false := rfl
  rw [h2, AddLibrary_present N _ _ h true hv hm]
  simp [hv]

theorem getPermanentLibrary_absent {σ : Type} (N : Native σ) (st : State σ) (path : String)
    (h : Ptr) (hopen : ∀ s, (N.DLOpen s (some path)).1 = h) (hv : h ≠ N.Invalid)
    (hm : h ∉ (st.handles N).Handles) :
    getPermanentLibrary N st (some path)
      = some (h, { st with
          OpenedHandles := some { st.handles N with Handles := (st.handles N).Handles ++ [h] },
          world := (st.world.DLOpen N (some path)).2 }) := by
  have h1 : (st.world.DLOpen N (some path)).1 = h := hopen st.world.os
  simp only [getPermanentLibrary, h1]
  have h2 : ((some path : Option String) == none) = false := rfl
  rw [h2, AddLibrary_absent N _ _ h true hv hm]
  simp [hv]

theorem loadTimes_present {σ : Type} (N : Native σ) (path : String) (h : Ptr)
    (hopen : ∀ s, (N.DLOpen s (some path)).1 = h) (hv : h ≠ N.Invalid) (hs : HandleSet)
    (hm : h ∈ hs.Handles) (k : Nat) :
    ∀ st : State σ, st.OpenedHandles = some hs →
      ∃ stk, loadTimes N (some path) k st = some (List.replicate k h, stk) ∧
        stk.OpenedHandles = some hs := by
  induction k with
  | zero => intro st hst; exact ⟨st, rfl, hst⟩
  | succ k ih =>
    intro st hst
    have hh : st.handles N = hs := by simp [State.handles, hst]
    have hm1 : h ∈ (st.handles N).Handles := by rw [hh]; exact hm
    obtain ⟨stk, h1, h2⟩ := ih
      { st with OpenedHandles := some (st.handles N),
                world := (st.world.DLOpen N (some path)).2.DLClose N h } (by simp [hh])
    refine ⟨stk, ?_, h2⟩
    simp only [loadTimes, getPermanentLibrary_present N st path h hopen hv hm1, h1,
      List.replicate_succ]

theorem firstExport_cons_miss {σ : Type} (N : Native σ) (os : σ) (Symbol : String)
    (DL : Ptr) (rest : List Ptr) (hd : N.DLSym os DL Symbol = nullptr) :
    firstExport N os Symbol (DL :: rest) = firstExport N os Symbol rest := by
  simp [firstExport, List.find?, hd]

theorem firstExport_cons_hit {σ : Type} (N : Native σ) (os : σ) (Symbol : String)
    (DL : Ptr) (rest : List Ptr) (hd : N.DLSym os DL Symbol ≠ nullptr) :
    firstExport N os Symbol (DL :: rest) = N.DLSym os DL Symbol := by
  have hb : (N.DLSym os DL Symbol != nullptr) = true := by simpa using hd
  simp only [firstExport, List.find?, hb]

theorem lookupLoop_spec {σ : Type} (N : Native σ) (Symbol : String) (l : List Ptr) :
    ∀ w : World σ, (lookupLoop N Symbol l w).1 = firstExport N w.os Symbol l ∧
      (lookupLoop N Symbol l w).2.os = w.os := by
  induction l with
  | nil => intro w; exact ⟨rfl, rfl⟩
  | cons DL rest ih =>
    intro w
    by_cases hd : N.DLSym w.os DL Symbol = nullptr
    · have h := ih (w.DLSym N DL Symbol).2
      simp only [lookupLoop, World.DLSym, hd, ne_eq, not_true_eq_false, if_false]
      simp only [World.DLSym] at h
      refine ⟨?_, h.2⟩
      rw [h.1, firstExport_cons_miss N w.os Symbol DL rest hd]
    · rw [firstExport_cons_hit N w.os Symbol DL rest hd]
      simp [lookupLoop, World.DLSym, hd]

theorem firstExport_eq_null_iff {σ : Type} (N : Native σ) (os : σ) (Symbol : String)
    (l : List Ptr) :
    firstExport N os Symbol l = nullptr ↔ ∀ DL ∈ l, N.DLSym os DL Symbol = nullptr := by
  induction l with
  | nil => simp [firstExport]
  | cons DL rest ih =>
    by_cases hd : N.DLSym os DL Symbol = nullptr
    · rw [firstExport_cons_miss N os Symbol DL rest hd, ih]
      simp [hd]
    · rw [firstExport_cons_hit N os Symbol DL rest hd]
      simp [hd]

theorem LibLookup_spec {σ : Type} (N : Native σ) (hs : HandleSet) (w : World σ)
    (Symbol : String) (Order : Nat) :
    (hs.LibLookup N w Symbol Order).1 = firstExport N w.os Symbol (scanOrder hs Order) ∧
      (hs.LibLookup N w Symbol Order).2.os = w.os := by
  unfold HandleSet.LibLookup scanOrder
  by_cases hf : hasFlag Order SO_LoadOrder = true
  · simp only [hf, if_true]; exact lookupLoop_spec N Symbol _ w
  · simp only [hf]; exact lookupLoop_spec N Symbol _ w

theorem firstExport_append_hit {σ : Type} (N : Native σ) (os : σ) (Symbol : String)
    (pre post : List Ptr) (DL : Ptr) (hpre : ∀ x ∈ pre, N.DLSym os x Symbol = nullptr)
    (hhit : N.DLSym os DL Symbol ≠ nullptr) :
    firstExport N os Symbol (pre ++ DL :: post) = N.DLSym os DL Symbol := by
  induction pre with
  | nil => exact firstExport_cons_hit N os Symbol DL post hhit
  | cons x rest ih =>
    have hx : N.DLSym os x Symbol = nullptr := hpre x (List.mem_cons_self _ _)
    rw [List.cons_append, firstExport_cons_miss N os Symbol x _ hx]
    exact ih (fun y hy => hpre y (List.mem_cons_of_mem _ hy))


theorem World.DLSym_fst {σ : Type} (N : Native σ) (w : World σ) (Handle : Ptr)
    (Symbol : String) : (w.DLSym N Handle Symbol).1 = N.DLSym w.os Handle Symbol := rfl

theorem World.DLSym_os {σ : Type} (N : Native σ) (w : World σ) (Handle : Ptr)
    (Symbol : String) : (w.DLSym N Handle Symbol).2.os = w.os := rfl

theorem LibLookup_same_os {σ : Type} (N : Native σ) (hs : HandleSet) (w w2 : World σ)
    (Symbol : String) (Order : Nat) (h2 : w2.os = w.os) :
    (hs.LibLookup N w2 Symbol Order).1 = firstExport N w.os Symbol (scanOrder hs Order) ∧
      (hs.LibLookup N w2 Symbol Order).2.os = w.os := by
  have h := LibLookup_spec N hs w2 Symbol Order
  rw [h2] at h
  exact h

theorem Lookup_spec {σ : Type} (N : Native σ) (hs : HandleSet) (w : World σ)
    (Symbol : String) (Order : Nat)
    (hO : (hasFlag Order SO_LoadedFirst && hasFlag Order SO_LoadedLast) = false) :
    ∃ r, hs.Lookup N w Symbol Order = some r ∧
      r.1 = lookupValue N hs w.os Symbol Order ∧ r.2.os = w.os := by
  have key := fun w2 h2 => LibLookup_same_os N hs w w2 Symbol Order h2
  unfold HandleSet.Lookup
  simp only [hO, Bool.false_eq_true, if_false]
  by_cases hc : (!isValid N hs.Process || hasFlag Order SO_LoadedFirst) = true
  · simp only [hc, if_true, lookupValue]
    obtain ⟨k1a, k1b⟩ := key w rfl
    obtain ⟨k3a, k3b⟩ := key ((hs.LibLookup N w Symbol Order).2.DLSym N hs.Process Symbol).2
      (by rw [World.DLSym_os, k1b])
    generalize hs.LibLookup N ((hs.LibLookup N w Symbol Order).2.DLSym N hs.Process Symbol).2
      Symbol Order = r3 at k3a k3b ⊢
    have hp : ((hs.LibLookup N w Symbol Order).2.DLSym N hs.Process Symbol).1
        = N.DLSym w.os hs.Process Symbol := by rw [World.DLSym_fst, k1b]
    have hq : ((hs.LibLookup N w Symbol Order).2.DLSym N hs.Process Symbol).2.os = w.os := by
      rw [World.DLSym_os, k1b]
    generalize (hs.LibLookup N w Symbol Order).2.DLSym N hs.Process Symbol = r2 at hp hq ⊢
    generalize hs.LibLookup N w Symbol Order = r1 at k1a k1b ⊢
    generalize firstExport N w.os Symbol (scanOrder hs Order) = L at k1a k3a ⊢
    generalize N.DLSym w.os hs.Process Symbol = P at hp ⊢
    obtain ⟨a1, w1⟩ := r1
    obtain ⟨a2, w2⟩ := r2
    obtain ⟨a3, w3⟩ := r3
    simp only at k1a k1b k3a k3b hp hq
    subst k1a k3a hp
    split_ifs <;> simp_all
  · simp only [hc, Bool.false_eq_true, if_false, lookupValue]
    have hv : isValid N hs.Process = true := by
      cases hi : isValid N hs.Process
      · simp [hi] at hc
      · rfl
    simp only [hv, if_true, ne_eq, not_true_eq_false, if_false]
    obtain ⟨k3a, k3b⟩ := key (w.DLSym N hs.Process Symbol).2 rfl
    generalize hs.LibLookup N (w.DLSym N hs.Process Symbol).2 Symbol Order = r3 at k3a k3b ⊢
    have hp : (w.DLSym N hs.Process Symbol).1 = N.DLSym w.os hs.Process Symbol := rfl
    have hq : (w.DLSym N hs.Process Symbol).2.os = w.os := rfl
    generalize w.DLSym N hs.Process Symbol = r2 at hp hq ⊢
    generalize firstExport N w.os Symbol (scanOrder hs Order) = L at k3a ⊢
    generalize N.DLSym w.os hs.Process Symbol = P at hp ⊢
    obtain ⟨a2, w2⟩ := r2
    obtain ⟨a3, w3⟩ := r3
    simp only at k3a k3b hp hq
    subst k3a hp
    split_ifs <;> simp_all

theorem searchLibraries_spec {σ : Type} (N : Native σ) (st : State σ) (SymbolName : String)
    (hs : HandleSet) (ho : st.OpenedHandles = some hs)
    (hO : (hasFlag st.SearchOrder SO_LoadedFirst && hasFlag st.SearchOrder SO_LoadedLast)
      = false) :
    ∃ r, searchLibraries N st SymbolName = some r ∧
      r.1 = (if lookupValue N hs st.world.os SymbolName st.SearchOrder ≠ nullptr then
               lookupValue N hs st.world.os SymbolName st.SearchOrder
             else N.DoSearch st.world.os SymbolName) ∧
      r.2.world.os = st.world.os ∧ r.2.OpenedHandles = st.OpenedHandles ∧
      r.2.ExplicitSymbols = st.ExplicitSymbols ∧ r.2.SearchOrder = st.SearchOrder := by
  obtain ⟨r, h1, h2, h3⟩ := Lookup_spec N hs st.world SymbolName st.SearchOrder hO
  simp only [searchLibraries, ho, h1]
  by_cases hn : r.1 = nullptr
  · rw [← h2]
    simp [hn, SearchForAddressOfSpecialSymbol, World.DoSearch, h3]
  · rw [← h2]
    simp [hn, h3]

theorem Search_no_explicit {σ : Type} (N : Native σ) (st : State σ) (SymbolName : String)
    (hexp : (st.ExplicitSymbols.getD []).find SymbolName = none) :
    SearchForAddressOfSymbol N st SymbolName = searchLibraries N st SymbolName := by
  unfold SearchForAddressOfSymbol
  cases he : st.ExplicitSymbols with
  | none => rfl
  | some m =>
    rw [he] at hexp
    simp only [Option.getD_some] at hexp
    simp only [hexp]

theorem World.extendsBySym_refl {σ : Type} (w : World σ) : w.extendsBySym w :=
  ⟨[], by simp, rfl⟩

theorem World.extendsBySym_trans {σ : Type} {w w1 w2 : World σ} (h1 : w.extendsBySym w1)
    (h2 : w1.extendsBySym w2) : w.extendsBySym w2 := by
  obtain ⟨m1, e1, a1⟩ := h1
  obtain ⟨m2, e2, a2⟩ := h2
  refine ⟨m1 ++ m2, by rw [e2, e1, List.append_assoc], ?_⟩
  rw [List.all_append, a1, a2]
  rfl

theorem World.extendsBySym_DLSym {σ : Type} (N : Native σ) (w : World σ) (Handle : Ptr)
    (Symbol : String) : w.extendsBySym (w.DLSym N Handle Symbol).2 :=
  ⟨[NativeCall.DLSym Handle Symbol], rfl, rfl⟩

theorem lookupLoop_calls {σ : Type} (N : Native σ) (Symbol : String) (l : List Ptr) :
    ∀ w : World σ, w.extendsBySym (lookupLoop N Symbol l w).2 := by
  induction l with
  | nil => intro w; exact World.extendsBySym_refl w
  | cons DL rest ih =>
    intro w
    simp only [lookupLoop]
    split_ifs
    · exact World.extendsBySym_DLSym N w DL Symbol
    · exact World.extendsBySym_trans (World.extendsBySym_DLSym N w DL Symbol) (ih _)

theorem LibLookup_calls {σ : Type} (N : Native σ) (hs : HandleSet) (w : World σ)
    (Symbol : String) (Order : Nat) : w.extendsBySym (hs.LibLookup N w Symbol Order).2 := by
  unfold HandleSet.LibLookup
  split_ifs
  · exact lookupLoop_calls N Symbol _ w
  · exact lookupLoop_calls N Symbol _ w

theorem Lookup_calls {σ : Type} (N : Native σ) (hs : HandleSet) (w : World σ)
    (Symbol : String) (Order : Nat) (r : Ptr × World σ)
    (h : hs.Lookup N w Symbol Order = some r) : w.extendsBySym r.2 := by
  have e1 := LibLookup_calls N hs w Symbol Order
  have e2 := World.extendsBySym_DLSym N w hs.Process Symbol
  have e3 := World.extendsBySym_DLSym N (hs.LibLookup N w Symbol Order).2 hs.Process Symbol
  have e4 := LibLookup_calls N hs (w.DLSym N hs.Process Symbol).2 Symbol Order
  have e5 := LibLookup_calls N hs
    ((hs.LibLookup N w Symbol Order).2.DLSym N hs.Process Symbol).2 Symbol Order
  have e13 := World.extendsBySym_trans e1 e3
  have e24 := World.extendsBySym_trans e2 e4
  have e135 := World.extendsBySym_trans e13 e5
  unfold HandleSet.Lookup at h
  dsimp only at h
  split_ifs at h <;> injection h with h <;> subst h <;>
    first
      | exact World.extendsBySym_refl w
      | exact e1
      | exact e2
      | exact e13
      | exact e24
      | exact e135

theorem Lookup_os {σ : Type} (N : Native σ) (hs : HandleSet) (w : World σ)
    (Symbol : String) (Order : Nat) (r : Ptr × World σ)
    (h : hs.Lookup N w Symbol Order = some r) : r.2.os = w.os := by
  by_cases hO : (hasFlag Order SO_LoadedFirst && hasFlag Order SO_LoadedLast) = true
  · simp [HandleSet.Lookup, hO] at h
  · obtain ⟨r1, h1, _, h3⟩ := Lookup_spec N hs w Symbol Order (by simpa using hO)
    rw [h1] at h
    injection h with h
    subst h
    exact h3

theorem Search_explicit_hit {σ : Type} (N : Native σ) (st : State σ) (SymbolName : String)
    (v : Ptr) (hexp : (st.ExplicitSymbols.getD []).find SymbolName = some v) :
    SearchForAddressOfSymbol N st SymbolName = some (v, st) := by
  unfold SearchForAddressOfSymbol
  cases he : st.ExplicitSymbols with
  | none => rw [he] at hexp; simp [StringMap.find] at hexp
  | some m =>
    rw [he] at hexp
    simp only [Option.getD_some] at hexp
    simp only [hexp]

theorem AddLibrary_extends_handles {σ : Type} (N : Native σ) (hs hs1 : HandleSet) (w w1 : World σ)
    (Handle : Ptr) (IsProcess CanClose : Bool) (ret : ReturnTy)
    (h : hs.AddLibrary N w Handle IsProcess CanClose = some (ret, hs1, w1)) :
    hs.Handles <+: hs1.Handles := by
  rcases AddLibrary_Handles N hs hs1 w w1 Handle IsProcess CanClose ret h with h1 | ⟨_, h1⟩
  · rw [h1]
  · rw [h1]; exact List.prefix_append _ _

theorem searchLibraries_frame {σ : Type} (N : Native σ) (st : State σ) (SymbolName : String)
    (r : Ptr × State σ) (h : searchLibraries N st SymbolName = some r) :
    r.2.OpenedHandles = st.OpenedHandles ∧ r.2.ExplicitSymbols = st.ExplicitSymbols ∧
      r.2.SearchOrder = st.SearchOrder ∧ r.2.world.os = st.world.os := by
  unfold searchLibraries at h
  cases ho : st.OpenedHandles with
  | none =>
    simp only [ho] at h
    injection h with h
    subst h
    exact ⟨rfl, rfl, rfl, rfl⟩
  | some hs =>
    simp only [ho] at h
    cases hl : hs.Lookup N st.world SymbolName st.SearchOrder with
    | none => simp [hl] at h
    | some q =>
      have hos := Lookup_os N hs st.world SymbolName st.SearchOrder q hl
      simp only [hl] at h
      split_ifs at h <;> injection h with h <;> subst h
      · exact ⟨rfl, rfl, rfl, hos⟩
      · exact ⟨rfl, rfl, rfl, hos⟩

theorem Search_frame {σ : Type} (N : Native σ) (st : State σ) (SymbolName : String)
    (r : Ptr × State σ) (h : SearchForAddressOfSymbol N st SymbolName = some r) :
    r.2.OpenedHandles = st.OpenedHandles ∧ r.2.ExplicitSymbols = st.ExplicitSymbols ∧
      r.2.SearchOrder = st.SearchOrder ∧ r.2.world.os = st.world.os := by
  cases hf : (st.ExplicitSymbols.getD []).find SymbolName with
  | none =>
    rw [Search_no_explicit N st SymbolName hf] at h
    exact searchLibraries_frame N st SymbolName r h
  | some v =>
    rw [Search_explicit_hit N st SymbolName v hf] at h
    injection h with h
    subst h
    exact ⟨rfl, rfl, rfl, rfl⟩

theorem step_extends_handles {σ : Type} (N : Native σ) (st st1 : State σ) (op : Op)
    (h : step N st op = some st1) :
    (st.handles N).Handles <+: (st1.handles N).Handles := by
  cases op with
  | AddLibrary Handle IsProcess CanClose =>
    simp only [step] at h
    split at h
    · simp at h
    · rename_i ret hs w heq
      injection h with h
      subst h
      exact AddLibrary_extends_handles N _ _ _ _ _ _ _ _ heq
  | getPermanentLibrary FileName =>
    simp only [step, getPermanentLibrary] at h
    split at h
    · split at h
      · simp at h
      · rename_i ret hs w heq
        simp at h
        subst h
        exact AddLibrary_extends_handles N _ _ _ _ _ _ _ _ heq
    · simp at h
      subst h
      exact List.prefix_refl _
  | addPermanentLibrary Handle Err =>
    simp only [step] at h
    cases hr : addPermanentLibrary N st Handle Err with
    | none => simp [hr] at h
    | some r =>
      simp only [hr, Option.map_some'] at h
      injection h with h
      subst h
      obtain ⟨ret, hs, w, heq, hst, _⟩ := addPermanentLibrary_state N st Handle Err r hr
      rw [hst]
      exact AddLibrary_extends_handles N _ _ _ _ _ _ _ _ heq
  | AddSymbol SymbolName SymbolValue =>
    simp only [step, AddSymbol] at h
    injection h with h
    subst h
    exact List.prefix_refl _
  | LibLookup Symbol Order =>
    simp only [step] at h
    injection h with h
    subst h
    exact List.prefix_refl _
  | Lookup Symbol Order =>
    simp only [step] at h
    split at h
    · simp at h
    · injection h with h
      subst h
      exact List.prefix_refl _
  | SearchForAddressOfSymbol SymbolName =>
    simp only [step] at h
    cases hs : SearchForAddressOfSymbol N st SymbolName with
    | none => simp [hs] at h
    | some r =>
      simp only [hs, Option.map_some'] at h
      injection h with h
      subst h
      have hf := (Search_frame N st SymbolName r hs).1
      simp only [State.handles, hf]
      exact List.prefix_refl _
  | getAddressOfSymbol Data SymbolName =>
    simp only [step] at h
    injection h with h
    subst h
    exact List.prefix_refl _
  | setSearchOrder Order =>
    simp only [step] at h
    injection h with h
    subst h
    exact List.prefix_refl _

theorem step_lookup_frame {σ : Type} (N : Native σ) (st st1 : State σ) (op : Op)
    (h : step N st op = some st1) (hl : op.isLookup = true) :
    st1.handles N = st.handles N ∧ st1.ExplicitSymbols = st.ExplicitSymbols ∧
      st1.SearchOrder = st.SearchOrder ∧ st1.world.os = st.world.os := by
  cases op with
  | AddLibrary Handle IsProcess CanClose => simp [Op.isLookup] at hl
  | getPermanentLibrary FileName => simp [Op.isLookup] at hl
  | addPermanentLibrary Handle Err => simp [Op.isLookup] at hl
  | AddSymbol SymbolName SymbolValue => simp [Op.isLookup] at hl
  | setSearchOrder Order => simp [Op.isLookup] at hl
  | LibLookup Symbol Order =>
    simp only [step] at h
    injection h with h
    subst h
    exact ⟨rfl, rfl, rfl, (LibLookup_spec N _ st.world Symbol Order).2⟩
  | Lookup Symbol Order =>
    simp only [step] at h
    split at h
    · simp at h
    · rename_i r heq
      injection h with h
      subst h
      exact ⟨rfl, rfl, rfl, Lookup_os N _ st.world Symbol Order r heq⟩
  | SearchForAddressOfSymbol SymbolName =>
    simp only [step] at h
    cases hs : SearchForAddressOfSymbol N st SymbolName with
    | none => simp [hs] at h
    | some r =>
      simp only [hs, Option.map_some'] at h
      injection h with h
      subst h
      obtain ⟨h1, h2, h3, h4⟩ := Search_frame N st SymbolName r hs
      exact ⟨by simp only [State.handles, h1], h2, h3, h4⟩
  | getAddressOfSymbol Data SymbolName =>
    simp only [step] at h
    injection h with h
    subst h
    refine ⟨rfl, rfl, rfl, ?_⟩
    simp only [getAddressOfSymbol]
    split_ifs <;> rfl

theorem run_frame {σ : Type} (N : Native σ) (ops : List Op) :
    ∀ (st st1 : State σ), run N st ops = some st1 →
      (st.handles N).Handles <+: (st1.handles N).Handles ∧
      ((∀ op ∈ ops, op.isLookup = true) →
        st1.handles N = st.handles N ∧ st1.ExplicitSymbols = st.ExplicitSymbols ∧
          st1.SearchOrder = st.SearchOrder ∧ st1.world.os = st.world.os) := by
  induction ops with
  | nil =>
    intro st st1 h
    simp only [run] at h
    injection h with h
    subst h
    exact ⟨List.prefix_refl _, fun _ => ⟨rfl, rfl, rfl, rfl⟩⟩
  | cons op ops ih =>
    intro st st1 h
    simp only [run] at h
    cases hs : step N st op with
    | none => simp [hs] at h
    | some st2 =>
      simp only [hs, Option.bind] at h
      obtain ⟨p2, f2⟩ := ih st2 st1 h
      refine ⟨(step_extends_handles N st st2 op hs).trans p2, ?_⟩
      intro hall
      obtain ⟨a1, a2, a3, a4⟩ :=
        step_lookup_frame N st st2 op hs (hall op (List.mem_cons_self _ _))
      obtain ⟨b1, b2, b3, b4⟩ := f2 (fun o ho => hall o (List.mem_cons_of_mem _ ho))
      exact ⟨b1.trans a1, b2.trans a2, b3.trans a3, b4.trans a4⟩

theorem AddLibrary_effect {σ : Type} (N : Native σ) (hs hs1 : HandleSet) (w w1 : World σ)
    (Handle : Ptr) (IsProcess CanClose : Bool) (ret : ReturnTy)
    (h : hs.AddLibrary N w Handle IsProcess CanClose = some (ret, hs1, w1)) :
    Handle ≠ N.Invalid ∧
    (IsProcess = true → hs1.Handles = hs.Handles ∧ hs1.Process = Handle) ∧
    (IsProcess = false → hs1.Process = hs.Process ∧
      (hs1.Handles = hs.Handles ∨ hs1.Handles = hs.Handles ++ [Handle])) := by
  have hv : Handle ≠ N.Invalid := by
    intro hc
    simp [HandleSet.AddLibrary, hc] at h
  refine ⟨hv, ?_, ?_⟩
  · intro hp
    subst hp
    simp [HandleSet.AddLibrary, hv] at h
    rw [← h.2.1]
    exact ⟨rfl, rfl⟩
  · intro hp
    subst hp
    by_cases hm : Handle ∈ hs.Handles
    · rw [AddLibrary_present N hs w Handle CanClose hv hm] at h
      simp at h
      rw [← h.2.1]
      exact ⟨rfl, Or.inl rfl⟩
    · rw [AddLibrary_absent N hs w Handle CanClose hv hm] at h
      simp at h
      rw [← h.2.1]
      exact ⟨rfl, Or.inr rfl⟩

theorem addCalls_invariant {σ : Type} (N : Native σ) (l : List (Ptr × Bool × Bool))
    (l2 : List (Ptr × Bool × Bool)) :
    ∀ (st st1 : State σ), (∀ a ∈ l2, a ∈ l) → run N st (addCalls l2) = some st1 →
      ((∀ x ∈ (st.handles N).Handles, ∃ b ∈ l, b.1 = x ∧ b.2.1 = false) ∧
        ((st.handles N).Process = N.Invalid ∨
          ∃ a ∈ l, a.1 = (st.handles N).Process ∧ a.2.1 = true) ∧
        N.Invalid ∉ (st.handles N).Handles) →
      ((∀ x ∈ (st1.handles N).Handles, ∃ b ∈ l, b.1 = x ∧ b.2.1 = false) ∧
        ((st1.handles N).Process = N.Invalid ∨
          ∃ a ∈ l, a.1 = (st1.handles N).Process ∧ a.2.1 = true) ∧
        N.Invalid ∉ (st1.handles N).Handles) := by
  induction l2 with
  | nil =>
    intro st st1 _ h hinv
    simp only [addCalls, List.map_nil, run] at h
    injection h with h
    subst h
    exact hinv
  | cons a rest ih =>
    intro st st1 hsub h hinv
    simp only [addCalls, List.map_cons, run] at h
    cases hs : step N st (Op.AddLibrary a.1 a.2.1 a.2.2) with
    | none => simp [hs] at h
    | some st2 =>
      simp only [hs, Option.bind] at h
      refine ih st2 st1 (fun b hb => hsub b (List.mem_cons_of_mem _ hb)) h ?_
      have ha : a ∈ l := hsub a (List.mem_cons_self _ _)
      simp only [step] at hs
      split at hs
      · simp at hs
      · rename_i ret hs1 w1 heq
        injection hs with hs
        subst hs
        obtain ⟨hv, hP, hL⟩ := AddLibrary_effect N _ _ _ _ _ _ _ _ heq
        obtain ⟨i1, i2, i3⟩ := hinv
        have hh : ∀ w2, (({ st with OpenedHandles := some hs1, world := w2 } : State σ).handles N)
            = hs1 := fun _ => rfl
        rw [hh]
        cases hmode : a.2.1 with
        | true =>
          obtain ⟨e1, e2⟩ := hP hmode
          rw [e1, e2]
          exact ⟨i1, Or.inr ⟨a, ha, rfl, hmode⟩, i3⟩
        | false =>
          obtain ⟨e1, e2⟩ := hL hmode
          rw [e1]
          rcases e2 with e2 | e2
          · rw [e2]; exact ⟨i1, i2, i3⟩
          · rw [e2]
            refine ⟨?_, i2, ?_⟩
            · intro x hx
              rcases List.mem_append.1 hx with hx | hx
              · exact i1 x hx
              · have : x = a.1 := by simpa using hx
                exact ⟨a, ha, this.symm, hmode⟩
            · intro hc
              rcases List.mem_append.1 hc with hc | hc
              · exact i3 hc
              · have : N.Invalid = a.1 := by simpa using hc
                exact hv this.symm

/-! ## Claims -/

/-- C1: after `AddSymbol(n, A)` the call `SearchForAddressOfSymbol(n)` returns `A`, for
every state (explicit table, opened handles, process entry, search order, loader
state), every platform and every `A`, null included; the state is returned as it was,
so no platform primitive and no hook was called. A later `AddSymbol(n, B)` makes it
return `B`, and an `AddSymbol` of another name in between changes nothing. -/
theorem C1_explicit_symbol_wins {σ : Type} (N : Native σ) (st : State σ) (n : String)
    (A B : Ptr) :
    SearchForAddressOfSymbol N (AddSymbol st n A) n = some (A, AddSymbol st n A) ∧
    SearchForAddressOfSymbol N (AddSymbol (AddSymbol st n A) n B) n
      = some (B, AddSymbol (AddSymbol st n A) n B) ∧
    (∀ (m : String) (C : Ptr), m ≠ n →
      SearchForAddressOfSymbol N (AddSymbol (AddSymbol st n A) m C) n
        = some (A, AddSymbol (AddSymbol st n A) m C)) := by
  refine ⟨?_, ?_, ?_⟩
  · simp [SearchForAddressOfSymbol, AddSymbol, StringMap.find_set_same]
  · simp [SearchForAddressOfSymbol, AddSymbol, StringMap.find_set_same]
  · intro m C hm
    simp [SearchForAddressOfSymbol, AddSymbol, StringMap.find_set_other _ m n C (Ne.symm hm),
      StringMap.find_set_same]

/-- C2: for a valid handle `h`, `AddLibrary(h, false, CanClose)` returns with "newly
added" exactly when `h` was not among `Handles`; then `Handles` is the old sequence with
`h` appended and the returned entry is its last element, holding `h`; otherwise
`Handles` is unchanged and the returned entry is the existing one holding `h`. The
process entry is unchanged in both cases. -/
theorem C2_AddLibrary_dedup {σ : Type} (N : Native σ) (hs : HandleSet) (w : World σ)
    (h : Ptr) (CanClose : Bool) (hv : h ≠ N.Invalid) :
    ∃ r, hs.AddLibrary N w h false CanClose = some r ∧
      (r.1.2 = true ↔ h ∉ hs.Handles) ∧
      (h ∉ hs.Handles →
        r.2.1.Handles = hs.Handles ++ [h] ∧
        r.1.1 = Entry.handle (r.2.1.Handles.length - 1) ∧
        r.2.1.deref r.1.1 = some h) ∧
      (h ∈ hs.Handles →
        r.2.1.Handles = hs.Handles ∧
        r.1.1 = Entry.handle (hs.Handles.indexOf h) ∧
        hs.deref r.1.1 = some h) ∧
      r.2.1.Process = hs.Process := by
  by_cases hm : h ∈ hs.Handles
  · refine ⟨_, AddLibrary_present N hs w h CanClose hv hm, ?_, ?_, ?_, rfl⟩
    · simp [hm]
    · intro hc; exact absurd hm hc
    · intro _
      refine ⟨rfl, rfl, ?_⟩
      simp [HandleSet.deref, HandleSet.Find, List.getElem?_indexOf hm]
  · refine ⟨_, AddLibrary_absent N hs w h CanClose hv hm, ?_, ?_, ?_, rfl⟩
    · simp [hm]
    · intro _
      refine ⟨rfl, ?_, ?_⟩
      · simp
      · simp [HandleSet.deref]
    · intro hc; exact absurd hc hm

/-- Witness of C2 on the demo platform: re-adding `10` to `[11, 10]`. -/
theorem C2_AddLibrary_dedup_witness :
    (10 : Ptr) ≠ demoNative.Invalid ∧
    ∃ r, HandleSet.AddLibrary demoNative ⟨[11, 10], 2⟩ ⟨(), []⟩ 10 false true = some r ∧
      (r.1.2 = true ↔ (10 : Ptr) ∉ [11, 10]) ∧
      ((10 : Ptr) ∉ [11, 10] →
        r.2.1.Handles = [11, 10] ++ [10] ∧
        r.1.1 = Entry.handle (r.2.1.Handles.length - 1) ∧
        r.2.1.deref r.1.1 = some 10) ∧
      ((10 : Ptr) ∈ [11, 10] →
        r.2.1.Handles = [11, 10] ∧
        r.1.1 = Entry.handle (List.indexOf (10 : Ptr) [11, 10]) ∧
        HandleSet.deref ⟨[11, 10], 2⟩ r.1.1 = some 10) ∧
      r.2.1.Process = 2 :=
  ⟨by decide, C2_AddLibrary_dedup demoNative ⟨[11, 10], 2⟩ ⟨(), []⟩ 10 true (by decide)⟩

/-- C3: for a valid handle `h`, `AddLibrary(h, false, CanClose)` calls `DLClose` once,
on `h`, when `h` was already among `Handles` and `CanClose` holds, and calls no platform
primitive at all otherwise: the log grows by exactly that one call or not at all, and
the loader state changes by exactly that one `DLClose` or not at all. -/
theorem C3_AddLibrary_close_iff_duplicate {σ : Type} (N : Native σ) (hs : HandleSet)
    (w : World σ) (h : Ptr) (CanClose : Bool) (hv : h ≠ N.Invalid) :
    ∃ r, hs.AddLibrary N w h false CanClose = some r ∧
      r.2.2.calls
        = w.calls ++ (if h ∈ hs.Handles ∧ CanClose = true then [NativeCall.DLClose h] else []) ∧
      r.2.2.os = (if h ∈ hs.Handles ∧ CanClose = true then N.DLClose w.os h else w.os) := by
  by_cases hm : h ∈ hs.Handles
  · refine ⟨_, AddLibrary_present N hs w h CanClose hv hm, ?_, ?_⟩
    · cases CanClose <;> simp [hm, World.DLClose]
    · cases CanClose <;> simp [hm, World.DLClose]
  · refine ⟨_, AddLibrary_absent N hs w h CanClose hv hm, ?_, ?_⟩ <;> simp [hm]

/-- Witness of C3 on the demo platform: re-adding `10` to `[11, 10]` closes `10`. -/
theorem C3_AddLibrary_close_iff_duplicate_witness :
    (10 : Ptr) ≠ demoNative.Invalid ∧
    ∃ r, HandleSet.AddLibrary demoNative ⟨[11, 10], 2⟩ ⟨(), []⟩ 10 false true = some r ∧
      r.2.2.calls
        = [] ++ (if (10 : Ptr) ∈ [11, 10] ∧ true = true then [NativeCall.DLClose 10] else []) ∧
      r.2.2.os = (if (10 : Ptr) ∈ [11, 10] ∧ true = true then demoNative.DLClose () 10 else ()) :=
  ⟨by decide,
    C3_AddLibrary_close_iff_duplicate demoNative ⟨[11, 10], 2⟩ ⟨(), []⟩ 10 true (by decide)⟩

/-- C4: in every state reached from the initial state by any sequence of `AddLibrary`,
`getPermanentLibrary`, `addPermanentLibrary`, `AddSymbol`, lookup calls and assignments
to `SearchOrder`, no handle value occurs twice in `Handles`. -/
theorem C4_no_duplicate_handles {σ : Type} (N : Native σ) (s : σ) (ops : List Op)
    (st : State σ) (h : run N (State.init s) ops = some st) :
    (st.handles N).Handles.Nodup :=
  run_Nodup N ops (State.init s) st h (by simp [State.init, State.handles, HandleSet.new])

/-- Witness of C4 on the demo platform: four loads, two of them repeats. -/
theorem C4_no_duplicate_handles_witness :
    run demoNative (State.init ())
        [Op.getPermanentLibrary (some "libA"), Op.addPermanentLibrary 10 (some ""),
         Op.getPermanentLibrary (some "libB"), Op.getPermanentLibrary (some "libB")]
      = some { ExplicitSymbols := none, OpenedHandles := some ⟨[10, 11], 1⟩, SearchOrder := 2,
               world := ⟨(), [NativeCall.DLOpen (some "libA"), NativeCall.DLOpen (some "libB"),
                              NativeCall.DLOpen (some "libB"), NativeCall.DLClose 11]⟩ } ∧
    List.Nodup ([10, 11] : List Ptr) :=
  ⟨rfl, C4_no_duplicate_handles demoNative ()
    [Op.getPermanentLibrary (some "libA"), Op.addPermanentLibrary 10 (some ""),
     Op.getPermanentLibrary (some "libB"), Op.getPermanentLibrary (some "libB")]
    { ExplicitSymbols := none, OpenedHandles := some ⟨[10, 11], 1⟩, SearchOrder := 2,
      world := ⟨(), [NativeCall.DLOpen (some "libA"), NativeCall.DLOpen (some "libB"),
                     NativeCall.DLOpen (some "libB"), NativeCall.DLClose 11]⟩ } rfl⟩

/-- C5: let the platform open `path` as the valid handle `h` in every loader state, and
let `Handles` be duplicate-free (the registry invariant). Then for every `k ≥ 1`, `k`
successive calls `getPermanentLibrary(path)` all return, each with handle `h`; the handle
set after `k` calls is the one after the first call; `h` occurs exactly once in
`Handles`; the `AddLibrary` call made by the first load reports "newly added" exactly when
`h` was not registered before, and the `AddLibrary` call made by any later load reports
"not newly added". -/
theorem C5_repeated_loads_idempotent {σ : Type} (N : Native σ) (st : State σ) (path : String)
    (h : Ptr) (k : Nat) (hopen : ∀ s, (N.DLOpen s (some path)).1 = h) (hv : h ≠ N.Invalid)
    (hn : (st.handles N).Handles.Nodup) (hk : 1 ≤ k) :
    ∃ st1 stk,
      getPermanentLibrary N st (some path) = some (h, st1) ∧
      loadTimes N (some path) k st = some (List.replicate k h, stk) ∧
      stk.OpenedHandles = st1.OpenedHandles ∧
      (stk.handles N).Handles.count h = 1 ∧
      (∃ r, (st.handles N).AddLibrary N (st.world.DLOpen N (some path)).2
              (st.world.DLOpen N (some path)).1 ((some path : Option String) == none) true
              = some r ∧ (r.1.2 = true ↔ h ∉ (st.handles N).Handles)) ∧
      (∀ j stj res, 1 ≤ j → loadTimes N (some path) j st = some (res, stj) →
        ∃ r, (stj.handles N).AddLibrary N (stj.world.DLOpen N (some path)).2
              (stj.world.DLOpen N (some path)).1 ((some path : Option String) == none) true
              = some r ∧ r.1.2 = false) := by
  -- the first call
  have first : ∃ st1 hs1, getPermanentLibrary N st (some path) = some (h, st1) ∧
      st1.OpenedHandles = some hs1 ∧ h ∈ hs1.Handles ∧ hs1.Handles.count h = 1 := by
    by_cases hm : h ∈ (st.handles N).Handles
    · exact ⟨_, st.handles N, getPermanentLibrary_present N st path h hopen hv hm, rfl, hm,
        List.count_eq_one_of_mem hn hm⟩
    · refine ⟨_, _, getPermanentLibrary_absent N st path h hopen hv hm, rfl, by simp, ?_⟩
      simp [List.count_eq_zero_of_not_mem hm]
  obtain ⟨st1, hs1, hg, ho1, hm1, hc1⟩ := first
  -- any positive number of calls ends with the set of the first call
  have later : ∀ j, 1 ≤ j → ∃ stj, loadTimes N (some path) j st
      = some (List.replicate j h, stj) ∧ stj.OpenedHandles = some hs1 := by
    intro j hj
    obtain ⟨j, rfl⟩ : ∃ i, j = i + 1 := ⟨j - 1, by omega⟩
    obtain ⟨stj, h1, h2⟩ := loadTimes_present N path h hopen hv hs1 hm1 j st1 ho1
    exact ⟨stj, by simp only [loadTimes, hg, h1, List.replicate_succ], h2⟩
  obtain ⟨stk, hl, hok⟩ := later k hk
  have hb : ((some path : Option String) == none) = false := rfl
  refine ⟨st1, stk, hg, hl, by rw [hok, ho1], ?_, ?_, ?_⟩
  · simpa [State.handles, hok] using hc1
  · have e : (st.world.DLOpen N (some path)).1 = h := hopen st.world.os
    rw [e, hb]
    by_cases hm : h ∈ (st.handles N).Handles
    · exact ⟨_, AddLibrary_present N _ _ h true hv hm, by simp [hm]⟩
    · exact ⟨_, AddLibrary_absent N _ _ h true hv hm, by simp [hm]⟩
  · intro j stj res hj hrun
    obtain ⟨stj1, h1, h2⟩ := later j hj
    rw [h1] at hrun
    injection hrun with hrun
    injection hrun with _ hst
    subst hst
    have hh : stj1.handles N = hs1 := by simp [State.handles, h2]
    have e : (stj1.world.DLOpen N (some path)).1 = h := hopen stj1.world.os
    rw [e, hb, hh]
    exact ⟨_, AddLibrary_present N _ _ h true hv hm1, rfl⟩

/-- Witness of C5 on the demo platform: three loads of `libA` from the initial state. -/
theorem C5_repeated_loads_idempotent_witness :
    (∀ s, (demoNative.DLOpen s (some "libA")).1 = 10) ∧
    (10 : Ptr) ≠ demoNative.Invalid ∧
    ((State.init ()).handles demoNative).Handles.Nodup ∧
    1 ≤ 3 ∧
    ∃ st1 stk,
      getPermanentLibrary demoNative (State.init ()) (some "libA") = some (10, st1) ∧
      loadTimes demoNative (some "libA") 3 (State.init ()) = some (List.replicate 3 10, stk) ∧
      stk.OpenedHandles = st1.OpenedHandles ∧
      (stk.handles demoNative).Handles.count 10 = 1 ∧
      (∃ r, ((State.init ()).handles demoNative).AddLibrary demoNative
              ((State.init ()).world.DLOpen demoNative (some "libA")).2
              ((State.init ()).world.DLOpen demoNative (some "libA")).1
              ((some "libA" : Option String) == none) true
              = some r ∧
            (r.1.2 = true ↔ (10 : Ptr) ∉ ((State.init ()).handles demoNative).Handles)) ∧
      (∀ j stj res, 1 ≤ j → loadTimes demoNative (some "libA") j (State.init ()) = some (res, stj) →
        ∃ r, (stj.handles demoNative).AddLibrary demoNative
              (stj.world.DLOpen demoNative (some "libA")).2
              (stj.world.DLOpen demoNative (some "libA")).1
              ((some "libA" : Option String) == none) true
              = some r ∧ r.1.2 = false) :=
  ⟨fun _ => rfl, by decide, List.nodup_nil, by decide,
    C5_repeated_loads_idempotent demoNative (State.init ()) "libA" 10 3 (fun _ => rfl)
      (by decide) List.nodup_nil (by decide)⟩

/-- C6: for a valid handle `h`, `AddLibrary(h, true, true)` returns the process entry with
"newly added" exactly when the process entry held the sentinel before; afterwards the
process entry holds `h`; `DLClose` is called exactly once, on the previous process handle,
when there was one, and no primitive is called otherwise; `Handles` is unchanged. -/
theorem C6_process_scope_install {σ : Type} (N : Native σ) (hs : HandleSet) (w : World σ)
    (h : Ptr) (hv : h ≠ N.Invalid) :
    ∃ r, hs.AddLibrary N w h true true = some r ∧
      (r.1.2 = true ↔ hs.Process = N.Invalid) ∧
      r.1.1 = Entry.process ∧
      r.2.1.Process = h ∧
      r.2.2.calls
        = w.calls ++ (if hs.Process = N.Invalid then [] else [NativeCall.DLClose hs.Process]) ∧
      r.2.2.os = (if hs.Process = N.Invalid then w.os else N.DLClose w.os hs.Process) ∧
      r.2.1.Handles = hs.Handles := by
  refine ⟨_, by simp only [HandleSet.AddLibrary, hv]; rfl, ?_, rfl, rfl, ?_, ?_, rfl⟩
  · simp
  · by_cases hp : hs.Process = N.Invalid <;> simp [hp, World.DLClose]
  · by_cases hp : hs.Process = N.Invalid <;> simp [hp, World.DLClose]

/-- Witness of C6 on the demo platform: process handle `2` replaced by `3`. -/
theorem C6_process_scope_install_witness :
    (3 : Ptr) ≠ demoNative.Invalid ∧
    ∃ r, HandleSet.AddLibrary demoNative ⟨[10], 2⟩ ⟨(), []⟩ 3 true true = some r ∧
      (r.1.2 = true ↔ (2 : Ptr) = demoNative.Invalid) ∧
      r.1.1 = Entry.process ∧
      r.2.1.Process = 3 ∧
      r.2.2.calls
        = [] ++ (if (2 : Ptr) = demoNative.Invalid then [] else [NativeCall.DLClose 2]) ∧
      r.2.2.os = (if (2 : Ptr) = demoNative.Invalid then () else demoNative.DLClose () 2) ∧
      r.2.1.Handles = [10] :=
  ⟨by decide, C6_process_scope_install demoNative ⟨[10], 2⟩ ⟨(), []⟩ 3 (by decide)⟩

/-- C7, counterexample: with process handle `2` registered, `AddLibrary(3, true, false)`
reports "not newly added" and calls nothing, but the process entry then holds `3`:
`Contains(2)` has become false, and a lookup of `f`, which the process handle `2`
exports, now asks handle `3` and misses. -/
theorem C7_process_scope_is_replaced :
    isValid demoNative 2 = true ∧
    HandleSet.AddLibrary demoNative ⟨[10], 2⟩ ⟨(), []⟩ 3 true false
      = some ((Entry.process, false), ⟨[10], 3⟩, ⟨(), []⟩) ∧
    HandleSet.Contains ⟨[10], 2⟩ 2 = true ∧
    HandleSet.Contains ⟨[10], 3⟩ 2 = false ∧
    HandleSet.Lookup demoNative ⟨[10], 2⟩ ⟨(), []⟩ "f" SO_LoadedLast
      = some (200, ⟨(), [NativeCall.DLSym 2 "f"]⟩) ∧
    HandleSet.Lookup demoNative ⟨[10], 3⟩ ⟨(), []⟩ "f" SO_LoadedLast
      = some (0, ⟨(), [NativeCall.DLSym 3 "f", NativeCall.DLSym 10 "f"]⟩) := by
  refine ⟨by decide, rfl, by decide, by decide, rfl, rfl⟩

/-- C7, amended: with a process handle already registered, `AddLibrary(h2, true, false)`
for a valid `h2` reports "not newly added", calls no platform primitive (the world is
unchanged, so neither handle is closed), leaves `Handles` unchanged, and makes `h2` the
process entry: afterwards `Contains(h2)` holds, and `Contains(h1)` holds exactly for
`h1 = h2` and the members of `Handles`. -/
theorem C7_process_scope_reregistration {σ : Type} (N : Native σ) (hs : HandleSet)
    (w : World σ) (h2 : Ptr) (hv : h2 ≠ N.Invalid) (hp : hs.Process ≠ N.Invalid) :
    ∃ r, hs.AddLibrary N w h2 true false = some r ∧
      r.1.2 = false ∧
      r.1.1 = Entry.process ∧
      r.2.2 = w ∧
      r.2.1.Process = h2 ∧
      r.2.1.Handles = hs.Handles ∧
      r.2.1.Contains h2 = true ∧
      (∀ h1, r.2.1.Contains h1 = true ↔ (h1 = h2 ∨ h1 ∈ hs.Handles)) := by
  refine ⟨_, by simp only [HandleSet.AddLibrary, hv]; rfl, ?_, rfl, ?_, rfl, rfl, ?_, ?_⟩
  · simp [hp]
  · simp
  · simp [HandleSet.Contains]
  · intro h1
    have := Find_ne_length_iff { hs with Process := h2 } h1
    simp only [HandleSet.Contains, Bool.or_eq_true, beq_iff_eq, bne_iff_ne, this]

/-- Witness of the amended C7 on the demo platform. -/
theorem C7_process_scope_reregistration_witness :
    (3 : Ptr) ≠ demoNative.Invalid ∧ (2 : Ptr) ≠ demoNative.Invalid ∧
    ∃ r, HandleSet.AddLibrary demoNative ⟨[10], 2⟩ ⟨(), []⟩ 3 true false = some r ∧
      r.1.2 = false ∧
      r.1.1 = Entry.process ∧
      r.2.2 = ⟨(), []⟩ ∧
      r.2.1.Process = 3 ∧
      r.2.1.Handles = [10] ∧
      r.2.1.Contains 3 = true ∧
      (∀ h1, r.2.1.Contains h1 = true ↔ (h1 = 3 ∨ h1 ∈ ([10] : List Ptr))) :=
  ⟨by decide, by decide,
    C7_process_scope_reregistration demoNative ⟨[10], 2⟩ ⟨(), []⟩ 3 (by decide) (by decide)⟩

/-- C8: `LibLookup(name, Order)` returns the `DLSym` result of the first handle, in load
order when the load-order flag is set and in reverse load order otherwise, whose `DLSym`
result for `name` is non-null; it returns null exactly when every handle of `Handles`
yields null, in particular when `Handles` is empty; and it does not depend on the process
entry. -/
theorem C8_LibLookup_first_hit {σ : Type} (N : Native σ) (hs : HandleSet) (w : World σ)
    (name : String) (Order : Nat) :
    (hs.LibLookup N w name Order).1
      = firstExport N w.os name
          (if hasFlag Order SO_LoadOrder then hs.Handles else hs.Handles.reverse) ∧
    ((hs.LibLookup N w name Order).1 = nullptr ↔
      ∀ DL ∈ hs.Handles, N.DLSym w.os DL name = nullptr) ∧
    ((hs.Handles = [] → (hs.LibLookup N w name Order).1 = nullptr)) ∧
    (∀ p : Ptr, ({ hs with Process := p } : HandleSet).LibLookup N w name Order
      = hs.LibLookup N w name Order) := by
  have h := (LibLookup_spec N hs w name Order).1
  have hnull : (hs.LibLookup N w name Order).1 = nullptr ↔
      ∀ DL ∈ hs.Handles, N.DLSym w.os DL name = nullptr := by
    rw [h, firstExport_eq_null_iff]
    unfold scanOrder
    split <;> simp
  refine ⟨h, hnull, ?_, fun _ => rfl⟩
  intro he
  rw [hnull, he]
  simp

/-- C9: with an ordering that has "explicit handles first" set and neither "explicit
handles last" nor "load order", for a name `n` without explicit-table entry and a handle
`DL` that exports `n` while no handle registered after it does,
`SearchForAddressOfSymbol(n)` returns the address `DL` gives, whatever the process entry
is and whatever it would answer; only the log of calls changes. -/
theorem C9_most_recent_library_shadows {σ : Type} (N : Native σ) (st : State σ)
    (hs : HandleSet) (n : String) (pre post : List Ptr) (DL : Ptr)
    (hexp : (st.ExplicitSymbols.getD []).find n = none)
    (hopened : st.OpenedHandles = some hs)
    (hfirst : hasFlag st.SearchOrder SO_LoadedFirst = true)
    (hlast : hasFlag st.SearchOrder SO_LoadedLast = false)
    (hrev : hasFlag st.SearchOrder SO_LoadOrder = false)
    (hsplit : hs.Handles = pre ++ DL :: post)
    (hhit : N.DLSym st.world.os DL n ≠ nullptr)
    (hpost : ∀ x ∈ post, N.DLSym st.world.os x n = nullptr) :
    ∃ r, SearchForAddressOfSymbol N st n = some r ∧
      r.1 = N.DLSym st.world.os DL n ∧
      r.2.OpenedHandles = st.OpenedHandles ∧ r.2.ExplicitSymbols = st.ExplicitSymbols ∧
      r.2.SearchOrder = st.SearchOrder ∧ r.2.world.os = st.world.os := by
  have hO : (hasFlag st.SearchOrder SO_LoadedFirst && hasFlag st.SearchOrder SO_LoadedLast)
      = false := by simp [hlast]
  obtain ⟨r, h1, h2, h3, h4, h5, h6⟩ := searchLibraries_spec N st n hs hopened hO
  have hL : firstExport N st.world.os n (scanOrder hs st.SearchOrder)
      = N.DLSym st.world.os DL n := by
    have hr : scanOrder hs st.SearchOrder = post.reverse ++ DL :: pre.reverse := by
      simp [scanOrder, hrev, hsplit]
    rw [hr]
    exact firstExport_append_hit N st.world.os n post.reverse pre.reverse DL
      (fun x hx => hpost x (List.mem_reverse.1 hx)) hhit
  have hV : lookupValue N hs st.world.os n st.SearchOrder = N.DLSym st.world.os DL n := by
    simp [lookupValue, hfirst, hL, hhit]
  refine ⟨r, by rw [Search_no_explicit N st n hexp]; exact h1, ?_, h4, h5, h6, h3⟩
  rw [h2, hV]
  simp [hhit]


/-- Witness of C9 on the demo platform: `10` then `11` both export `g`, and the address
of `11` is returned. -/
theorem C9_most_recent_library_shadows_witness :
    StringMap.find ((none : Option StringMap).getD []) "g" = none ∧
    hasFlag SO_LoadedFirst SO_LoadedFirst = true ∧
    hasFlag SO_LoadedFirst SO_LoadedLast = false ∧
    hasFlag SO_LoadedFirst SO_LoadOrder = false ∧
    demoNative.DLSym () 10 "g" = 100 ∧
    demoNative.DLSym () 11 "g" ≠ nullptr ∧
    ∃ r, SearchForAddressOfSymbol demoNative
        { ExplicitSymbols := none, OpenedHandles := some ⟨[10, 11], 2⟩,
          SearchOrder := SO_LoadedFirst, world := ⟨(), []⟩ } "g" = some r ∧
      r.1 = demoNative.DLSym () 11 "g" ∧
      r.2.OpenedHandles = some ⟨[10, 11], 2⟩ ∧ r.2.ExplicitSymbols = none ∧
      r.2.SearchOrder = SO_LoadedFirst ∧ r.2.world.os = () :=
  ⟨rfl, by decide, by decide, by decide, by decide, by decide,
    C9_most_recent_library_shadows demoNative
      { ExplicitSymbols := none, OpenedHandles := some ⟨[10, 11], 2⟩,
        SearchOrder := SO_LoadedFirst, world := ⟨(), []⟩ }
      ⟨[10, 11], 2⟩ "g" [10] [] 11 rfl rfl (by decide) (by decide) (by decide) rfl
      (by decide) (by simp)⟩


/-- C10, counterexample: process handle `2` registered, ordering "explicit handles last",
no explicit symbols; for `stderr` the process search and the handle table both give null,
yet `SearchForAddressOfSymbol` returns `7`, the hook's answer, not the null of
`LibLookup`. -/
theorem C10_hook_answers_when_both_miss :
    isValid demoNative 2 = true ∧
    hasFlag SO_LoadedLast SO_LoadedLast = true ∧
    hasFlag SO_LoadedLast SO_LoadedFirst = false ∧
    demoNative.DLSym () 2 "stderr" = nullptr ∧
    (HandleSet.LibLookup demoNative ⟨[10], 2⟩ ⟨(), []⟩ "stderr" SO_LoadedLast).1 = nullptr ∧
    (SearchForAddressOfSymbol demoNative
        { ExplicitSymbols := none, OpenedHandles := some ⟨[10], 2⟩,
          SearchOrder := SO_LoadedLast, world := ⟨(), []⟩ } "stderr").map Prod.fst
      = some 7 := by
  refine ⟨by decide, by decide, by decide, by decide, by decide, by decide⟩

/-- C10, amended: with a process handle registered, "explicit handles last" set (and
"explicit handles first" not), and no explicit-table entry for `n`,
`SearchForAddressOfSymbol(n)` returns the process-scope `DLSym` result when that is
non-null; when it is null, it returns the result of `LibLookup(n)` if that is non-null, and
the result of the special-symbol hook when both are null. -/
theorem C10_process_scope_first_then_handles {σ : Type} (N : Native σ) (st : State σ)
    (hs : HandleSet) (n : String)
    (hexp : (st.ExplicitSymbols.getD []).find n = none)
    (hopened : st.OpenedHandles = some hs)
    (hproc : isValid N hs.Process = true)
    (hlast : hasFlag st.SearchOrder SO_LoadedLast = true)
    (hfirst : hasFlag st.SearchOrder SO_LoadedFirst = false) :
    ∃ r, SearchForAddressOfSymbol N st n = some r ∧
      r.1 = (if N.DLSym st.world.os hs.Process n ≠ nullptr then
               N.DLSym st.world.os hs.Process n
             else if (hs.LibLookup N st.world n st.SearchOrder).1 ≠ nullptr then
               (hs.LibLookup N st.world n st.SearchOrder).1
             else N.DoSearch st.world.os n) ∧
      r.2.OpenedHandles = st.OpenedHandles ∧ r.2.ExplicitSymbols = st.ExplicitSymbols ∧
      r.2.SearchOrder = st.SearchOrder ∧ r.2.world.os = st.world.os := by
  have hO : (hasFlag st.SearchOrder SO_LoadedFirst && hasFlag st.SearchOrder SO_LoadedLast)
      = false := by simp [hfirst]
  obtain ⟨r, h1, h2, h3, h4, h5, h6⟩ := searchLibraries_spec N st n hs hopened hO
  refine ⟨r, by rw [Search_no_explicit N st n hexp]; exact h1, ?_, h4, h5, h6, h3⟩
  rw [h2, (LibLookup_spec N hs st.world n st.SearchOrder).1]
  simp only [lookupValue, hproc, hfirst, hlast]
  split_ifs <;> simp_all

/-- Witness of the amended C10 on the demo platform: `h` is hidden from the process
search and exported by the registered handle `10`. -/
theorem C10_process_scope_first_then_handles_witness :
    StringMap.find ((none : Option StringMap).getD []) "h" = none ∧
    isValid demoNative 2 = true ∧
    hasFlag SO_LoadedLast SO_LoadedLast = true ∧
    hasFlag SO_LoadedLast SO_LoadedFirst = false ∧
    ∃ r, SearchForAddressOfSymbol demoNative
        { ExplicitSymbols := none, OpenedHandles := some ⟨[10], 2⟩,
          SearchOrder := SO_LoadedLast, world := ⟨(), []⟩ } "h" = some r ∧
      r.1 = (if demoNative.DLSym () 2 "h" ≠ nullptr then demoNative.DLSym () 2 "h"
             else if (HandleSet.LibLookup demoNative ⟨[10], 2⟩ ⟨(), []⟩ "h" SO_LoadedLast).1
                 ≠ nullptr then
               (HandleSet.LibLookup demoNative ⟨[10], 2⟩ ⟨(), []⟩ "h" SO_LoadedLast).1
             else demoNative.DoSearch () "h") ∧
      r.2.OpenedHandles = some ⟨[10], 2⟩ ∧ r.2.ExplicitSymbols = none ∧
      r.2.SearchOrder = SO_LoadedLast ∧ r.2.world.os = () :=
  ⟨rfl, by decide, by decide, by decide,
    C10_process_scope_first_then_handles demoNative
      { ExplicitSymbols := none, OpenedHandles := some ⟨[10], 2⟩,
        SearchOrder := SO_LoadedLast, world := ⟨(), []⟩ }
      ⟨[10], 2⟩ "h" rfl rfl (by decide) (by decide) (by decide)⟩

/-- C11: for a name `n` without explicit-table entry for which the registry lookup
returns null (or no handle set was ever constructed), `SearchForAddressOfSymbol(n)`
returns exactly the result of the special-symbol hook, null included, and the log grows
by calls of `DLSym` followed by exactly one call of the hook. Conversely, on a hit in the
explicit table the state, log included, is returned as it was, and on a hit of the
registry lookup the log grows by calls of `DLSym` only: the hook is not called. -/
theorem C11_hook_is_last_resort {σ : Type} (N : Native σ) (st : State σ) (n : String) :
    ((st.ExplicitSymbols.getD []).find n = none →
      (∀ hs, st.OpenedHandles = some hs →
        ∃ r, hs.Lookup N st.world n st.SearchOrder = some r ∧ r.1 = nullptr) →
      ∃ r mid, SearchForAddressOfSymbol N st n = some r ∧
        r.1 = N.DoSearch st.world.os n ∧
        r.2.world.calls = st.world.calls ++ mid ++ [NativeCall.DoSearch n] ∧
        mid.all NativeCall.isDLSym = true) ∧
    (∀ v, (st.ExplicitSymbols.getD []).find n = some v →
      SearchForAddressOfSymbol N st n = some (v, st)) ∧
    (∀ hs r, (st.ExplicitSymbols.getD []).find n = none → st.OpenedHandles = some hs →
      hs.Lookup N st.world n st.SearchOrder = some r → r.1 ≠ nullptr →
      SearchForAddressOfSymbol N st n = some (r.1, { st with world := r.2 }) ∧
      ∃ mid, r.2.calls = st.world.calls ++ mid ∧ mid.all NativeCall.isDLSym = true) := by
  refine ⟨?_, fun v hv => Search_explicit_hit N st n v hv, ?_⟩
  · intro hexp hmiss
    rw [Search_no_explicit N st n hexp]
    cases ho : st.OpenedHandles with
    | none =>
      have e : searchLibraries N st n
          = some ((SearchForAddressOfSpecialSymbol N st.world n).1,
              { st with world := (SearchForAddressOfSpecialSymbol N st.world n).2 }) := by
        simp only [searchLibraries, ho]
      refine ⟨_, [], e, rfl, ?_, rfl⟩
      simp [SearchForAddressOfSpecialSymbol, World.DoSearch]
    | some hs =>
      obtain ⟨r, hr, hnull⟩ := hmiss hs ho
      obtain ⟨mid, hmid, hall⟩ := Lookup_calls N hs st.world n st.SearchOrder r hr
      have hos := Lookup_os N hs st.world n st.SearchOrder r hr
      have e : searchLibraries N st n
          = some ((SearchForAddressOfSpecialSymbol N r.2 n).1,
              { st with world := (SearchForAddressOfSpecialSymbol N r.2 n).2 }) := by
        simp only [searchLibraries, ho, hr, hnull]
        rfl
      refine ⟨_, mid, e, ?_, ?_, hall⟩
      · simp [SearchForAddressOfSpecialSymbol, World.DoSearch, hos]
      · simp [SearchForAddressOfSpecialSymbol, World.DoSearch, hmid]
  · intro hs r hexp ho hr hhit
    rw [Search_no_explicit N st n hexp]
    refine ⟨?_, Lookup_calls N hs st.world n st.SearchOrder r hr⟩
    simp only [searchLibraries, ho, hr]
    rw [if_pos hhit]

/-- Witness of C11 on the demo platform: `stderr` is known to the hook only. -/
theorem C11_hook_is_last_resort_witness :
    (∃ r mid, SearchForAddressOfSymbol demoNative
        { ExplicitSymbols := none, OpenedHandles := some ⟨[10], 2⟩,
          SearchOrder := SO_LoadedLast, world := ⟨(), []⟩ } "stderr" = some r ∧
        r.1 = demoNative.DoSearch () "stderr" ∧
        r.2.world.calls = [] ++ mid ++ [NativeCall.DoSearch "stderr"] ∧
        mid.all NativeCall.isDLSym = true) ∧
    SearchForAddressOfSymbol demoNative
        { ExplicitSymbols := none, OpenedHandles := some ⟨[10], 2⟩,
          SearchOrder := SO_LoadedLast, world := ⟨(), []⟩ } "stderr"
      = some (7, { ExplicitSymbols := none, OpenedHandles := some ⟨[10], 2⟩,
                   SearchOrder := SO_LoadedLast,
                   world := ⟨(), [NativeCall.DLSym 2 "stderr", NativeCall.DLSym 10 "stderr",
                                  NativeCall.DoSearch "stderr"]⟩ }) :=
  ⟨(C11_hook_is_last_resort demoNative
      { ExplicitSymbols := none, OpenedHandles := some ⟨[10], 2⟩,
        SearchOrder := SO_LoadedLast, world := ⟨(), []⟩ } "stderr").1 rfl
      (fun hs h => by
        injection h with h
        subst h
        exact ⟨_, rfl, rfl⟩),
    rfl⟩

/-- C12: if `DLOpen` answers the sentinel for the given file name, null or not,
`getPermanentLibrary` returns the invalid handle and leaves the handle set (sequence and
process entry), the explicit symbols and the search order exactly as they were; the log
grows by the one `DLOpen` call, so `DLClose` is not called. -/
theorem C12_load_failure_is_atomic {σ : Type} (N : Native σ) (st : State σ)
    (FileName : Option String) (hfail : (N.DLOpen st.world.os FileName).1 = N.Invalid) :
    ∃ r, getPermanentLibrary N st FileName = some r ∧
      r.1 = N.Invalid ∧ isValid N r.1 = false ∧
      r.2.OpenedHandles = st.OpenedHandles ∧
      r.2.ExplicitSymbols = st.ExplicitSymbols ∧
      r.2.SearchOrder = st.SearchOrder ∧
      r.2.world.calls = st.world.calls ++ [NativeCall.DLOpen FileName] ∧
      r.2.world.os = (N.DLOpen st.world.os FileName).2 := by
  have h1 : (st.world.DLOpen N FileName).1 = N.Invalid := hfail
  refine ⟨(N.Invalid, { st with world := (st.world.DLOpen N FileName).2 }), ?_, rfl, ?_, rfl,
    rfl, rfl, rfl, rfl⟩
  · simp only [getPermanentLibrary, h1, ne_eq, not_true_eq_false, if_false]
  · simp [isValid]

/-- Witness of C12 on the demo platform: `libZ` cannot be opened. -/
theorem C12_load_failure_is_atomic_witness :
    (demoNative.DLOpen () (some "libZ")).1 = demoNative.Invalid ∧
    ∃ r, getPermanentLibrary demoNative
        { ExplicitSymbols := some [("g", 5)], OpenedHandles := some ⟨[10], 2⟩,
          SearchOrder := SO_LoadedLast, world := ⟨(), []⟩ } (some "libZ") = some r ∧
      r.1 = demoNative.Invalid ∧ isValid demoNative r.1 = false ∧
      r.2.OpenedHandles = some ⟨[10], 2⟩ ∧
      r.2.ExplicitSymbols = some [("g", 5)] ∧
      r.2.SearchOrder = SO_LoadedLast ∧
      r.2.world.calls = [] ++ [NativeCall.DLOpen (some "libZ")] ∧
      r.2.world.os = (demoNative.DLOpen () (some "libZ")).2 :=
  ⟨rfl, C12_load_failure_is_atomic demoNative
    { ExplicitSymbols := some [("g", 5)], OpenedHandles := some ⟨[10], 2⟩,
      SearchOrder := SO_LoadedLast, world := ⟨(), []⟩ } (some "libZ") rfl⟩

/-- C13, evaluated at the failing input: handle `10` is already registered and
`addPermanentLibrary(10, Err)` is called with a null `Err`. Whatever truth value the
negated pair of line 164 is given, the error "Library already loaded" is not reported:
if the pair counts as false, line 165 writes through the null `Err` and the call aborts;
if it counts as true, the call returns without any message. With the reading of the
comment on line 163 (the flag "newly added") the call aborts on the null `Err` and
reports only through a non-null one; with the pair counted as true (its pointer is never
null) no error is written even through a non-null `Err`. -/
theorem C13_addPermanentLibrary_error_not_reported :
    (10 : Ptr) ∈ (HandleSet.mk [11, 10] 2).Handles ∧
    (∀ c : ReturnTy → Bool,
      addPermanentLibrary { demoNative with pairToBool := c }
          { ExplicitSymbols := none, OpenedHandles := some ⟨[11, 10], 2⟩,
            SearchOrder := SO_LoadedLast, world := ⟨(), []⟩ } 10 none
        = if c (Entry.handle 1, false) then
            some ((10, none),
              { ExplicitSymbols := none, OpenedHandles := some ⟨[11, 10], 2⟩,
                SearchOrder := SO_LoadedLast, world := ⟨(), []⟩ })
          else none) ∧
    addPermanentLibrary demoNative
        { ExplicitSymbols := none, OpenedHandles := some ⟨[11, 10], 2⟩,
          SearchOrder := SO_LoadedLast, world := ⟨(), []⟩ } 10 none
      = none ∧
    addPermanentLibrary demoNative
        { ExplicitSymbols := none, OpenedHandles := some ⟨[11, 10], 2⟩,
          SearchOrder := SO_LoadedLast, world := ⟨(), []⟩ } 10 (some "")
      = some ((10, some "Library already loaded"),
          { ExplicitSymbols := none, OpenedHandles := some ⟨[11, 10], 2⟩,
            SearchOrder := SO_LoadedLast, world := ⟨(), []⟩ }) ∧
    addPermanentLibrary { demoNative with pairToBool := fun _ => true }
        { ExplicitSymbols := none, OpenedHandles := some ⟨[11, 10], 2⟩,
          SearchOrder := SO_LoadedLast, world := ⟨(), []⟩ } 10 (some "")
      = some ((10, some ""),
          { ExplicitSymbols := none, OpenedHandles := some ⟨[11, 10], 2⟩,
            SearchOrder := SO_LoadedLast, world := ⟨(), []⟩ }) := by
  refine ⟨by decide, ?_, rfl, rfl, rfl⟩
  intro c
  have hadd : HandleSet.AddLibrary { demoNative with pairToBool := c } ⟨[11, 10], 2⟩
      ⟨(), []⟩ 10 false false
      = some ((Entry.handle 1, false), ⟨[11, 10], 2⟩, ⟨(), []⟩) := rfl
  cases hc : c (Entry.handle 1, false) <;>
    simp [addPermanentLibrary, State.handles, hadd, hc]

/-- C14: `getAddressOfSymbol` on the invalid handle returns null and leaves the world as
it was (no `DLSym` call); on any other handle it returns exactly `DLSym(Data, name)`,
logging that one call. Neither the handle set, nor the explicit symbols, nor the search
order enter the computation, and the call leaves them unchanged. -/
theorem C14_getAddressOfSymbol_passthrough {σ : Type} (N : Native σ) (st : State σ)
    (Data : Ptr) (name : String) :
    getAddressOfSymbol N Data st.world name
      = (if Data = N.Invalid then (nullptr, st.world)
         else (N.DLSym st.world.os Data name,
               { os := st.world.os,
                 calls := st.world.calls ++ [NativeCall.DLSym Data name] })) ∧
    (∀ st2 : State σ, st2.world = st.world →
      getAddressOfSymbol N Data st2.world name = getAddressOfSymbol N Data st.world name) ∧
    step N st (Op.getAddressOfSymbol Data name)
      = some { ExplicitSymbols := st.ExplicitSymbols, OpenedHandles := st.OpenedHandles,
               SearchOrder := st.SearchOrder,
               world := (getAddressOfSymbol N Data st.world name).2 } := by
  refine ⟨?_, fun st2 h2 => by rw [h2], rfl⟩
  by_cases hd : Data = N.Invalid
  · simp [getAddressOfSymbol, isValid, hd]
  · simp [getAddressOfSymbol, isValid, hd, World.DLSym]

/-- C15, counterexample: under the initial `SearchOrder`, with process handle `2` and
library handle `10` both exporting `f`, the lookup asks the process handle first and
returns its address `200` without consulting `Handles`, although the handle sequence
alone would have answered `100`. -/
theorem C15_default_asks_process_first :
    (State.init ()).SearchOrder = SO_LoadedLast ∧
    isValid overlapNative 2 = true ∧
    (HandleSet.LibLookup overlapNative ⟨[10], 2⟩ ⟨(), []⟩ "f" (State.init ()).SearchOrder).1
      = 100 ∧
    HandleSet.Lookup overlapNative ⟨[10], 2⟩ ⟨(), []⟩ "f" (State.init ()).SearchOrder
      = some (200, ⟨(), [NativeCall.DLSym 2 "f"]⟩) ∧
    (SearchForAddressOfSymbol overlapNative
        { State.init () with OpenedHandles := some ⟨[10], 2⟩ } "f").map Prod.fst
      = some 200 := by
  refine ⟨rfl, by decide, by decide, rfl, by decide⟩

/-- C15, amended: the initial `SearchOrder` is `SO_LoadedLast`, with neither the
load-order flag nor "explicit handles first" set. Under it `Handles` is scanned in
reverse load order, and when a process handle is registered the process handle is asked
first and `Handles` is scanned only after the process handle answered null; without a
process handle only `Handles` is scanned. -/
theorem C15_default_search_order {σ : Type} (N : Native σ) (s : σ) (hs : HandleSet)
    (w : World σ) (name : String) :
    (State.init s).SearchOrder = SO_LoadedLast ∧
    hasFlag (State.init s).SearchOrder SO_LoadOrder = false ∧
    hasFlag (State.init s).SearchOrder SO_LoadedFirst = false ∧
    hasFlag (State.init s).SearchOrder SO_LoadedLast = true ∧
    hs.Lookup N w name (State.init s).SearchOrder
      = (if isValid N hs.Process then
           if (w.DLSym N hs.Process name).1 ≠ nullptr then some (w.DLSym N hs.Process name)
           else some (lookupLoop N name hs.Handles.reverse (w.DLSym N hs.Process name).2)
         else some (lookupLoop N name hs.Handles.reverse w)) := by
  have h1 : hasFlag SO_LoadedLast SO_LoadOrder = false := by decide
  have h2 : hasFlag SO_LoadedLast SO_LoadedFirst = false := by decide
  have h3 : hasFlag SO_LoadedLast SO_LoadedLast = true := by decide
  refine ⟨rfl, h1, h2, h3, ?_⟩
  have hi : (State.init s).SearchOrder = SO_LoadedLast := rfl
  rw [hi]
  have hnull : ∀ r : Ptr × World σ,
      (if r.1 ≠ nullptr then some r else some (nullptr, r.2)) = some r := by
    intro r
    split_ifs with hr
    · rfl
    · have : r.1 = nullptr := by simpa using hr
      rw [← this]
  simp only [HandleSet.Lookup, HandleSet.LibLookup, h1, h2, h3, Bool.false_and,
    Bool.false_eq_true, if_false, Bool.or_false, if_true]
  by_cases hv : isValid N hs.Process = true
  · simp only [hv, Bool.not_true, Bool.false_eq_true, if_false, if_true, ne_eq,
      not_true_eq_false, hnull]
  · have hv2 : isValid N hs.Process = false := by simpa using hv
    simp only [hv2, Bool.not_false, if_true, Bool.false_eq_true, if_false]
    exact hnull _

/-- C16: for every sequence of calls (`AddLibrary` in any mode, `getPermanentLibrary`,
`addPermanentLibrary`, `AddSymbol`, `LibLookup`, `Lookup`, `SearchForAddressOfSymbol`,
`getAddressOfSymbol`, assignments to `SearchOrder`), and so for every single call, the
sequence `Handles` before is a prefix of `Handles` after: entries are never removed or
reordered. If all the calls are lookups, the handle set, the explicit symbols, the search
order and the loader state are unchanged. -/
theorem C16_no_eviction {σ : Type} (N : Native σ) (st st1 : State σ) (ops : List Op)
    (h : run N st ops = some st1) :
    (st.handles N).Handles <+: (st1.handles N).Handles ∧
    ((∀ op ∈ ops, op.isLookup = true) →
      st1.handles N = st.handles N ∧ st1.ExplicitSymbols = st.ExplicitSymbols ∧
        st1.SearchOrder = st.SearchOrder ∧ st1.world.os = st.world.os) :=
  run_frame N ops st st1 h

/-- Witness of C16 on the demo platform: a load, a duplicate load, a new process scope
and a lookup, starting from the handles `[10]`. -/
theorem C16_no_eviction_witness :
    run demoNative
        { ExplicitSymbols := none, OpenedHandles := some ⟨[10], 1⟩,
          SearchOrder := SO_LoadedLast, world := ⟨(), []⟩ }
        [Op.getPermanentLibrary (some "libB"), Op.getPermanentLibrary (some "libA"),
         Op.AddLibrary 2 true true, Op.Lookup "g" SO_LoadedFirst]
      = some { ExplicitSymbols := none, OpenedHandles := some ⟨[10, 11], 2⟩,
               SearchOrder := SO_LoadedLast,
               world := ⟨(), [NativeCall.DLOpen (some "libB"), NativeCall.DLOpen (some "libA"),
                              NativeCall.DLClose 10, NativeCall.DLSym 11 "g"]⟩ } ∧
    ([10] : List Ptr) <+: [10, 11] :=
  ⟨rfl, (C16_no_eviction demoNative
    { ExplicitSymbols := none, OpenedHandles := some ⟨[10], 1⟩,
      SearchOrder := SO_LoadedLast, world := ⟨(), []⟩ }
    { ExplicitSymbols := none, OpenedHandles := some ⟨[10, 11], 2⟩,
      SearchOrder := SO_LoadedLast,
      world := ⟨(), [NativeCall.DLOpen (some "libB"), NativeCall.DLOpen (some "libA"),
                     NativeCall.DLClose 10, NativeCall.DLSym 11 "g"]⟩ }
    [Op.getPermanentLibrary (some "libB"), Op.getPermanentLibrary (some "libA"),
     Op.AddLibrary 2 true true, Op.Lookup "g" SO_LoadedFirst] rfl).1⟩

/-- C18, counterexample: registering the value `5` first as a library and then as the
process scope leaves it in both slots: `Handles = [5]` and `Process = 5`. -/
theorem C18_same_value_in_both_slots :
    (run demoNative (State.init ()) [Op.AddLibrary 5 false true, Op.AddLibrary 5 true true]).map
        (fun st => st.OpenedHandles)
      = some (some ⟨[5], 5⟩) ∧
    (5 : Ptr) ∈ ([5] : List Ptr) := by
  refine ⟨rfl, by decide⟩

/-- C18, amended: in every state reached from the initial state through `AddLibrary`
calls in which no value is passed both as process scope and as an ordinary library, the
value of the process entry does not occur in `Handles`, and neither does the sentinel.
The registry itself does not compare the process entry with `Handles`. -/
theorem C18_process_slot_not_in_handles {σ : Type} (N : Native σ) (s : σ)
    (l : List (Ptr × Bool × Bool)) (st : State σ)
    (hrun : run N (State.init s) (addCalls l) = some st)
    (hdisj : ∀ a ∈ l, ∀ b ∈ l, a.2.1 = true → b.2.1 = false → a.1 ≠ b.1) :
    (st.handles N).Process ∉ (st.handles N).Handles ∧
    N.Invalid ∉ (st.handles N).Handles := by
  have hinit : (∀ x ∈ ((State.init s).handles N).Handles, ∃ b ∈ l, b.1 = x ∧ b.2.1 = false) ∧
      (((State.init s).handles N).Process = N.Invalid ∨
        ∃ a ∈ l, a.1 = ((State.init s).handles N).Process ∧ a.2.1 = true) ∧
      N.Invalid ∉ ((State.init s).handles N).Handles := by
    refine ⟨?_, Or.inl rfl, ?_⟩
    · intro x hx
      simp [State.init, State.handles, HandleSet.new] at hx
    · simp [State.init, State.handles, HandleSet.new]
  obtain ⟨i1, i2, i3⟩ := addCalls_invariant N l l (State.init s) st (fun _ h => h) hrun hinit
  refine ⟨?_, i3⟩
  intro hmem
  rcases i2 with hp | ⟨a, ha, ea, ma⟩
  · rw [hp] at hmem
    exact i3 hmem
  · obtain ⟨b, hb, eb, mb⟩ := i1 _ hmem
    exact hdisj a ha b hb ma mb (ea.trans eb.symm)

/-- Witness of the amended C18 on the demo platform: libraries `10` and `11`, process
scope `2`. -/
theorem C18_process_slot_not_in_handles_witness :
    run demoNative (State.init ())
        (addCalls [(10, false, true), (2, true, true), (11, false, true), (10, false, false)])
      = some { ExplicitSymbols := none, OpenedHandles := some ⟨[10, 11], 2⟩,
               SearchOrder := SO_LoadedLast, world := ⟨(), []⟩ } ∧
    (∀ a ∈ [((10 : Ptr), false, true), (2, true, true), (11, false, true), (10, false, false)],
      ∀ b ∈ [((10 : Ptr), false, true), (2, true, true), (11, false, true), (10, false, false)],
        a.2.1 = true → b.2.1 = false → a.1 ≠ b.1) ∧
    (2 : Ptr) ∉ ([10, 11] : List Ptr) ∧ demoNative.Invalid ∉ ([10, 11] : List Ptr) :=
  ⟨rfl, by decide,
    C18_process_slot_not_in_handles demoNative ()
      [(10, false, true), (2, true, true), (11, false, true), (10, false, false)]
      { ExplicitSymbols := none, OpenedHandles := some ⟨[10, 11], 2⟩,
        SearchOrder := SO_LoadedLast, world := ⟨(), []⟩ } rfl (by decide)⟩
/-- C19: with a process handle registered and neither "explicit handles first" nor
"explicit handles last" set, `Lookup(name, Order)` returns exactly `DLSym(Process, name)`
and calls nothing else, whatever `Handles` contains. So for a name without explicit
entry that the process handle does not export, the registry yields null and
`SearchForAddressOfSymbol` returns the answer of the special-symbol hook, even when a
registered library exports the name. -/
theorem C19_linker_order_ignores_handles {σ : Type} (N : Native σ) (hs : HandleSet)
    (w : World σ) (name : String) (Order : Nat)
    (hproc : isValid N hs.Process = true)
    (hfirst : hasFlag Order SO_LoadedFirst = false)
    (hlast : hasFlag Order SO_LoadedLast = false) :
    hs.Lookup N w name Order
      = some (N.DLSym w.os hs.Process name,
          { os := w.os, calls := w.calls ++ [NativeCall.DLSym hs.Process name] }) ∧
    (∀ l : List Ptr, ({ hs with Handles := l } : HandleSet).Lookup N w name Order
      = hs.Lookup N w name Order) ∧
    (∀ st : State σ, st.OpenedHandles = some hs → st.SearchOrder = Order → st.world = w →
      (st.ExplicitSymbols.getD []).find name = none →
      N.DLSym w.os hs.Process name = nullptr →
      (SearchForAddressOfSymbol N st name).map Prod.fst = some (N.DoSearch w.os name)) := by
  have key : ∀ hs2 : HandleSet, hs2.Process = hs.Process →
      hs2.Lookup N w name Order
        = some (N.DLSym w.os hs.Process name,
            { os := w.os, calls := w.calls ++ [NativeCall.DLSym hs.Process name] }) := by
    intro hs2 hp
    unfold HandleSet.Lookup
    rw [hp]
    simp only [hfirst, hlast, hproc, World.DLSym, Bool.false_and, Bool.false_eq_true,
      if_false, Bool.not_true, Bool.or_false, ne_eq, not_true_eq_false, if_true]
    split_ifs with h1
    · rw [h1]
    · rfl
  refine ⟨key hs rfl, fun l => (key { hs with Handles := l } rfl).trans (key hs rfl).symm, ?_⟩
  intro st ho hO hw hexp hnull
  subst hO hw
  rw [Search_no_explicit N st name hexp]
  simp only [searchLibraries, ho, key hs rfl, hnull]
  simp [SearchForAddressOfSpecialSymbol, World.DoSearch]

/-- Witness of C19 on the demo platform: under the ordering `0`, `h` is exported by the
registered library `10` only, and the lookup returns null after asking the process
handle alone. -/
theorem C19_linker_order_ignores_handles_witness :
    isValid demoNative 2 = true ∧ hasFlag 0 SO_LoadedFirst = false ∧
    hasFlag 0 SO_LoadedLast = false ∧ demoNative.DLSym () 10 "h" = 101 ∧
    HandleSet.Lookup demoNative ⟨[10], 2⟩ ⟨(), []⟩ "h" 0
      = some (demoNative.DLSym () 2 "h",
          { os := (), calls := [] ++ [NativeCall.DLSym 2 "h"] }) ∧
    (∀ l : List Ptr, HandleSet.Lookup demoNative ⟨l, 2⟩ ⟨(), []⟩ "h" 0
      = HandleSet.Lookup demoNative ⟨[10], 2⟩ ⟨(), []⟩ "h" 0) ∧
    (SearchForAddressOfSymbol demoNative
        { ExplicitSymbols := none, OpenedHandles := some ⟨[10], 2⟩, SearchOrder := 0,
          world := ⟨(), []⟩ } "h").map Prod.fst = some (demoNative.DoSearch () "h") :=
  ⟨by decide, by decide, by decide, by decide,
    (C19_linker_order_ignores_handles demoNative ⟨[10], 2⟩ ⟨(), []⟩ "h" 0
      (by decide) (by decide) (by decide)).1,
    (C19_linker_order_ignores_handles demoNative ⟨[10], 2⟩ ⟨(), []⟩ "h" 0
      (by decide) (by decide) (by decide)).2.1,
    (C19_linker_order_ignores_handles demoNative ⟨[10], 2⟩ ⟨(), []⟩ "h" 0
      (by decide) (by decide) (by decide)).2.2
      { ExplicitSymbols := none, OpenedHandles := some ⟨[10], 2⟩, SearchOrder := 0,
        world := ⟨(), []⟩ } rfl rfl rfl rfl (by decide)⟩

/-- C20: on a handle set whose process entry still holds the sentinel (no process scope
was ever installed), `Contains` of the sentinel is true, although the sentinel is not in
`Handles` of a fresh set and `AddLibrary` refuses it; for every other value `h`,
`Contains(h)` is true exactly when `h` occurs in `Handles`. -/
theorem C20_Contains_sentinel {σ : Type} (N : Native σ) (hs : HandleSet)
    (hp : hs.Process = N.Invalid) :
    hs.Contains N.Invalid = true ∧
    (∀ h : Ptr, h ≠ N.Invalid → (hs.Contains h = true ↔ h ∈ hs.Handles)) ∧
    (HandleSet.new N).Contains N.Invalid = true ∧
    N.Invalid ∉ (HandleSet.new N).Handles ∧
    (∀ (w : World σ) (IsProcess CanClose : Bool),
      hs.AddLibrary N w N.Invalid IsProcess CanClose = none) := by
  refine ⟨?_, ?_, ?_, ?_, ?_⟩
  · simp [HandleSet.Contains, hp]
  · intro h hne
    have hf := Find_ne_length_iff hs h
    simp only [HandleSet.Contains, hp, Bool.or_eq_true, beq_iff_eq, bne_iff_ne, hf, hne,
      false_or]
  · simp [HandleSet.Contains, HandleSet.new]
  · simp [HandleSet.new]
  · intro w p c
    simp [HandleSet.AddLibrary]

/-- Witness of C20 on the demo platform: the set with `Handles = [10]` and no process
scope. -/
theorem C20_Contains_sentinel_witness :
    (1 : Ptr) = demoNative.Invalid ∧
    HandleSet.Contains ⟨[10], 1⟩ demoNative.Invalid = true ∧
    (∀ h : Ptr, h ≠ demoNative.Invalid →
      (HandleSet.Contains ⟨[10], 1⟩ h = true ↔ h ∈ ([10] : List Ptr))) ∧
    (HandleSet.new demoNative).Contains demoNative.Invalid = true ∧
    demoNative.Invalid ∉ (HandleSet.new demoNative).Handles ∧
    (∀ (w : World Unit) (IsProcess CanClose : Bool),
      HandleSet.AddLibrary demoNative ⟨[10], 1⟩ w demoNative.Invalid IsProcess CanClose
        = none) :=
  ⟨rfl, C20_Contains_sentinel demoNative ⟨[10], 1⟩ rfl⟩

end DynamicLibrary
